import Mathlib

/-!
Verification development for the StudyCompanion background-audio scheduler
(`src/audio_manager.py`), shallowly embedded in Lean 4.

Modelling conventions:
* Python ints are `Nat`/`Int`; Python `//` and `%` are `Int.fdiv`/`Int.fmod`
  (floor semantics), which agree with `/` and `%` on `Int` for positive divisors.
* Calendar dates are records `⟨year, month, day⟩` in the proleptic Gregorian
  calendar; `date` subtraction and ISO formatting are implemented from the
  same arithmetic CPython uses (`toordinal`).  `datetime.strptime(s, "%Y-%m-%d")`
  is embedded for ASCII digit strings.
* Config values carry the types the add-on's own schema gives them
  (`config_manager.get_defaults`): day counts and track positions are
  non-negative integers; the code's `int(cfg.get(k, d) or d)` idiom is the
  `orDefault` function (a stored `0` falls back to the default).
* The filesystem is a record of oracles (`isDir`, `isFile`, `listDir`,
  `pathExists`); a raised `OSError` from `os.listdir` is `listDir = none`.
* The playback engine's module-level globals form `EngineState`; spawning,
  terminating and sweeping `afplay` processes are recorded in an event trace.
  Mutually recursive internal calls (`_native_play_current_track`,
  `_advance_to_next_playlist`, `_start_playlist`) are driven by a fuel
  parameter; all invariants are proved for every fuel.
* Float bookkeeping that no claim touches (track durations, elapsed-time
  display positions, volume scaling) and fire-and-forget notification
  subprocesses (which play no audio) are elided.
-/

namespace StudyCompanion

/-- Pointwise update of a function-valued map, modelling `dict`/config key writes. -/
def setF (f : Nat → α) (k : Nat) (v : α) : Nat → α :=
  fun q => if q = k then v else f q

/-- The Python idiom `int(cfg.get(key, d) or d)` on a non-negative stored value:
a stored `0` is falsy and falls back to the default. -/
def orDefault (v d : Nat) : Nat :=
  if v = 0 then d else v

/-! ## Calendar dates (Python `datetime.date`) -/

/-- A proleptic-Gregorian calendar date, as held by Python's `datetime.date`. -/
structure PyDate where
  year : Nat
  month : Nat
  day : Nat
deriving DecidableEq, Repr

/-- Gregorian leap-year rule, as in CPython's `datetime`. -/
def isLeap (y : Nat) : Bool :=
  y % 4 = 0 && (y % 100 ≠ 0 || y % 400 = 0)

/-- Number of days in a month of a given year. -/
def daysInMonth (y m : Nat) : Nat :=
  if m = 2 then (if isLeap y then 29 else 28)
  else if m = 4 ∨ m = 6 ∨ m = 9 ∨ m = 11 then 30
  else 31

/-- Days in all years strictly before year `y` (year 1 is the first year),
mirroring CPython's `_days_before_year`. -/
def daysBeforeYear (y : Nat) : Nat :=
  365 * (y - 1) + (y - 1) / 4 - (y - 1) / 100 + (y - 1) / 400

/-- Days in the months of year `y` strictly before month `m`. -/
def daysBeforeMonth (y m : Nat) : Nat :=
  ((List.range (m - 1)).map (fun i => daysInMonth y (i + 1))).sum

/-- CPython's `date.toordinal`: day 1 is January 1 of year 1. -/
def toOrdinal (d : PyDate) : Nat :=
  daysBeforeYear d.year + daysBeforeMonth d.year d.month + d.day

/-- The dates `datetime.date` can actually represent. -/
def PyDate.Valid (d : PyDate) : Prop :=
  1 ≤ d.year ∧ d.year ≤ 9999 ∧ 1 ≤ d.month ∧ d.month ≤ 12 ∧
    1 ≤ d.day ∧ d.day ≤ daysInMonth d.year d.month

instance (d : PyDate) : Decidable d.Valid := by
  unfold PyDate.Valid; infer_instance

/-- Zero-padded decimal rendering, as in `f"{n:0{width}d}"`. -/
def padNum (width n : Nat) : String :=
  let s := toString n
  String.mk (List.replicate (width - s.length) '0') ++ s

/-- `date.isoformat()`: `YYYY-MM-DD`. -/
def isoDateStr (d : PyDate) : String :=
  padNum 4 d.year ++ "-" ++ padNum 2 d.month ++ "-" ++ padNum 2 d.day

/-! ## `datetime.strptime(start_str, "%Y-%m-%d")`

CPython's `_strptime` compiles the format to the regex
`(?P<Y>\d\d\d\d)\-(?P<m>1[0-2]|0[1-9]|[1-9])\-(?P<d>3[01]|[12]\d|0[1-9]|[1-9])`,
anchored at the start and required to consume the whole string; the
`datetime.date` constructor then validates the day against the month and the
year against `MINYEAR = 1`.  We embed this for ASCII digits. -/

/-- Numeric value of a list of ASCII digits (`int` on the matched group). -/
def charsToNat (l : List Char) : Nat :=
  l.foldl (fun a c => a * 10 + (c.toNat - 48)) 0

/-- Split a character list on `'-'` separators. -/
def splitOnDash : List Char → List (List Char)
  | [] => [[]]
  | c :: rest =>
    let r := splitOnDash rest
    if c = '-' then [] :: r
    else
      match r with
      | h :: t => (c :: h) :: t
      | [] => [[c]]

/-- The language of the `%m` group: `1[0-2]|0[1-9]|[1-9]`. -/
def monthCharsOk (l : List Char) : Bool :=
  match l with
  | [c] => '1' ≤ c && c ≤ '9'
  | [c₁, c₂] => (c₁ = '0' && '1' ≤ c₂ && c₂ ≤ '9') || (c₁ = '1' && '0' ≤ c₂ && c₂ ≤ '2')
  | _ => false

/-- The language of the `%d` group: `3[01]|[12]\d|0[1-9]|[1-9]`. -/
def dayCharsOk (l : List Char) : Bool :=
  match l with
  | [c] => '1' ≤ c && c ≤ '9'
  | [c₁, c₂] =>
      (c₁ = '0' && '1' ≤ c₂ && c₂ ≤ '9') ||
      ((c₁ = '1' || c₁ = '2') && c₂.isDigit) ||
      (c₁ = '3' && (c₂ = '0' || c₂ = '1'))
  | _ => false

/-- `datetime.strptime(s, "%Y-%m-%d").date()`, with `none` for the
`ValueError` branch the caller catches. -/
def parseStartDate (s : String) : Option PyDate :=
  match s.toList with
  | y₁ :: y₂ :: y₃ :: y₄ :: '-' :: rest =>
    if y₁.isDigit && y₂.isDigit && y₃.isDigit && y₄.isDigit then
      match splitOnDash rest with
      | [mp, dp] =>
        if monthCharsOk mp && dayCharsOk dp then
          let y := charsToNat [y₁, y₂, y₃, y₄]
          let m := charsToNat mp
          let d := charsToNat dp
          if 1 ≤ y ∧ d ≤ daysInMonth y m then some ⟨y, m, d⟩ else none
        else none
      | _ => none
    else none
  | _ => none

/-! ## Cycle Calculator (`get_cycle_info`, `get_effective_day`) -/

/-- The fields of the dict `get_cycle_info` returns that the claims mention.
The `cycle_start`/`cycle_end` date fields, which no claim references, are
projected away. -/
structure CycleInfo where
  cycle_day : Int
  is_break : Bool
  study_day : Int
  cycle_number : Int
  before_start : Bool := false
  no_cycle_configured : Bool := false
deriving DecidableEq, Repr

/-- The audio-related configuration keys (`config_manager.get_defaults`),
with per-playlist keys as maps over the playlist id. -/
structure Config where
  audio_cycle_start_date : String := ""
  audio_cycle_study_days : Nat := 21
  audio_cycle_break_days : Nat := 5
  audio_volume : Nat := 50
  audio_playlist_override_enabled : Bool := false
  audio_playlist_override_day : Int := 1
  audio_show_notifications : Bool := true
  audio_playlist_path : Nat → String := fun _ => ""
  audio_playlist_enabled : Nat → Bool := fun _ => true
  audio_track_position : Nat → Nat := fun _ => 0
  audio_time_position : Nat → Nat := fun _ => 0
  audio_playlist_completed_date : Nat → String := fun _ => ""

/-- The shared fallback body of `get_cycle_info` for an unset or malformed
start date: implicit start at January 1 of the query year.  (The Python
source duplicates this block verbatim in both fallback branches.) -/
def implicitCycleInfo (studyDays cycleLength : Int) (forDate : PyDate) : CycleInfo :=
  let implicitStart : PyDate := ⟨forDate.year, 1, 1⟩
  let daysElapsed : Int := (toOrdinal forDate : Int) - (toOrdinal implicitStart : Int)
  let cycleNumber := daysElapsed.fdiv cycleLength + 1
  let dayInCycle := daysElapsed.fmod cycleLength + 1
  let isBreak : Bool := studyDays < dayInCycle
  { cycle_day := dayInCycle
    is_break := isBreak
    study_day := if isBreak then 0 else dayInCycle
    cycle_number := cycleNumber
    no_cycle_configured := true }

/-- `get_cycle_info(cfg, for_date)` (src/audio_manager.py:143). -/
def getCycleInfo (cfg : Config) (forDate : PyDate) : CycleInfo :=
  let studyDays : Int := orDefault cfg.audio_cycle_study_days 21
  let breakDays : Int := orDefault cfg.audio_cycle_break_days 5
  let cycleLength : Int := studyDays + breakDays
  if cfg.audio_cycle_start_date = "" then implicitCycleInfo studyDays cycleLength forDate
  else
    match parseStartDate cfg.audio_cycle_start_date with
    | none => implicitCycleInfo studyDays cycleLength forDate
    | some cycleStart =>
      let daysElapsed : Int := (toOrdinal forDate : Int) - (toOrdinal cycleStart : Int)
      if daysElapsed < 0 then
        { cycle_day := 0, is_break := true, study_day := 0, cycle_number := 0,
          before_start := true }
      else
        let cycleNumber := daysElapsed.fdiv cycleLength + 1
        let dayInCycle := daysElapsed.fmod cycleLength + 1
        let isBreak : Bool := studyDays < dayInCycle
        { cycle_day := dayInCycle
          is_break := isBreak
          study_day := if isBreak then 0 else dayInCycle
          cycle_number := cycleNumber }

/-- `get_effective_day(cfg)` (src/audio_manager.py:244), with today's date
passed explicitly. -/
def getEffectiveDay (cfg : Config) (today : PyDate) : Int :=
  if cfg.audio_playlist_override_enabled then
    let od : Int :=
      if cfg.audio_playlist_override_day = 0 then 1 else cfg.audio_playlist_override_day
    max 1 (min 31 od)
  else
    let ci := getCycleInfo cfg today
    if ci.is_break then 0 else ci.study_day

/-! ## Playlist Selection Policy (`get_playlists_for_day`) -/

/-- `get_playlists_for_day(day)` (src/audio_manager.py:257).  Python's `%`
on a possibly negative day with a positive modulus is `Int.emod`. -/
def getPlaylistsForDay (day : Int) : List (Nat × Bool) :=
  if day = 0 then []
  else if day % 2 = 0 then [(1, true)]
  else if day % 4 = 1 ∧ day ≤ 21 then [(2, false), (1, true)]
  else if day % 4 = 3 ∧ day ≤ 19 then [(3, false), (1, true)]
  else [(1, true)]

/-! ## Track Source Resolver (`_expand_source`) -/

/-- The filesystem as a record of oracles.  `listDir dir = none` models an
`OSError` raised by `os.listdir` (permission denied, vanished folder, ...). -/
structure FileSystem where
  isDir : String → Bool
  isFile : String → Bool
  listDir : String → Option (List String)
  pathExists : String → Bool

/-- `SUPPORTED_AUDIO_EXTS` (src/audio_manager.py:31). -/
def supportedAudioExts : List String :=
  [".mp3", ".wav", ".ogg", ".m4a", ".flac", ".aac"]

/-- Suffix of a character list after its last `'/'`. -/
def afterLastSlash (l : List Char) : List Char :=
  (l.reverse.takeWhile (fun c => c ≠ '/')).reverse

/-- `os.path.basename` (POSIX). -/
def baseName (p : String) : String :=
  String.mk (afterLastSlash p.toList)

/-- Index of the last occurrence of `c`, if any. -/
def lastIdxOf (c : Char) (l : List Char) : Option Nat :=
  match l.reverse.findIdx? (fun x => x = c) with
  | none => none
  | some i => some (l.length - 1 - i)

/-- `os.path.splitext(p)[1]` (POSIX `genericpath._splitext`): the extension
starts at the last dot of the basename, provided some earlier character of
the basename is not a dot (so pure-dot prefixes yield no extension). -/
def extOf (p : String) : String :=
  let base := afterLastSlash p.toList
  match lastIdxOf '.' base with
  | none => ""
  | some i =>
    if (base.take i).any (fun c => c ≠ '.') then String.mk (base.drop i) else ""

/-- ASCII lowercasing, as `str.lower()` acts on the extensions involved here. -/
def lowerStr (s : String) : String :=
  String.mk (s.toList.map Char.toLower)

/-- Membership test `os.path.splitext(f)[1].lower() in SUPPORTED_AUDIO_EXTS`. -/
def extSupported (f : String) : Bool :=
  supportedAudioExts.contains (lowerStr (extOf f))

/-- `str.strip()` for the ASCII whitespace involved here, implemented on the
character list (kernel-reducible). -/
def pyStrip (s : String) : String :=
  String.mk (((s.toList.dropWhile Char.isWhitespace).reverse.dropWhile
    Char.isWhitespace).reverse)

/-- Does the string begin with `'/'`? (`b.startswith('/')` in `os.path.join`). -/
def headIsSlash (s : String) : Bool :=
  match s.toList with
  | c :: _ => c = '/'
  | [] => false

/-- Does the string end with `'/'`? -/
def lastIsSlash (s : String) : Bool :=
  match s.toList.reverse with
  | c :: _ => c = '/'
  | [] => false

/-- `os.path.join(folder, f)` for POSIX paths. -/
def pathJoin (folder f : String) : String :=
  if headIsSlash f then f
  else if folder = "" then f
  else if lastIsSlash folder then folder ++ f
  else folder ++ "/" ++ f

/-! ### Natural sort key (`_natural_key`)

`re.split(r"(\d+)", text)` yields an odd-length alternation
`[text, digits, text, ..., text]` (text pieces possibly empty); the key maps
digit runs to their integer value and text runs to lowercase.  Because even
positions are always strings and odd positions always integers, Python's
list comparison of two such keys never mixes types. -/

/-- A component of the natural sort key. -/
inductive KeyPart where
  | txt (l : List Char)
  | num (n : Nat)
deriving DecidableEq, Repr

/-- Raw alternating runs of a character list (before lowering/int conversion). -/
inductive RawPart where
  | txt (l : List Char)
  | dig (l : List Char)
deriving DecidableEq, Repr

/-- Split into maximal digit and non-digit runs, right to left; adjacent runs
of the same kind merge, and the result always ends with a (possibly empty)
text run. -/
def rawParts : List Char → List RawPart
  | [] => [RawPart.txt []]
  | c :: rest =>
    let r := rawParts rest
    if c.isDigit then
      match r with
      | RawPart.dig d :: t => RawPart.dig (c :: d) :: t
      | parts => RawPart.dig [c] :: parts
    else
      match r with
      | RawPart.txt tl :: t => RawPart.txt (c :: tl) :: t
      | parts => RawPart.txt [c] :: parts

/-- `_natural_key(text)` (src/audio_manager.py:99): the `re.split` pieces,
with a leading empty text piece when the string starts with a digit,
digit runs as integers, text runs lowercased. -/
def naturalKey (text : String) : List KeyPart :=
  let parts :=
    match rawParts text.toList with
    | RawPart.dig d :: t => RawPart.txt [] :: RawPart.dig d :: t
    | parts => parts
  parts.map (fun part =>
    match part with
    | RawPart.txt l => KeyPart.txt (l.map Char.toLower)
    | RawPart.dig l => KeyPart.num (charsToNat l))

/-- Python's comparison of characters: by code point. -/
def charCmp (a b : Char) : Ordering :=
  compare a.toNat b.toNat

/-- Python's lexicographic comparison of strings (as char lists). -/
def charListCmp : List Char → List Char → Ordering
  | [], [] => Ordering.eq
  | [], _ :: _ => Ordering.lt
  | _ :: _, [] => Ordering.gt
  | a :: l₁, b :: l₂ =>
    match charCmp a b with
    | Ordering.eq => charListCmp l₁ l₂
    | o => o

/-- Comparison of key parts.  Aligned positions of genuine natural keys
always hold the same constructor; the cross-constructor cases (on which
Python would raise `TypeError`, and which never arise between keys) are
fixed arbitrarily to keep the order total. -/
def keyPartCmp : KeyPart → KeyPart → Ordering
  | KeyPart.txt a, KeyPart.txt b => charListCmp a b
  | KeyPart.num a, KeyPart.num b => compare a b
  | KeyPart.txt _, KeyPart.num _ => Ordering.lt
  | KeyPart.num _, KeyPart.txt _ => Ordering.gt

/-- Python's lexicographic comparison of key lists (shorter prefix sorts
first). -/
def keyCmp : List KeyPart → List KeyPart → Ordering
  | [], [] => Ordering.eq
  | [], _ :: _ => Ordering.lt
  | _ :: _, [] => Ordering.gt
  | x :: xs, y :: ys =>
    match keyPartCmp x y with
    | Ordering.eq => keyCmp xs ys
    | o => o

/-- Non-strict key order, the order `list.sort(key=...)` sorts by. -/
def keyLe (a b : List KeyPart) : Bool :=
  keyCmp a b ≠ Ordering.gt

/-- The sort order on file paths: by natural key of the basename. -/
def trackLe (a b : String) : Bool :=
  keyLe (naturalKey (baseName a)) (naturalKey (baseName b))

/-- `_folder_audio_files(folder)` (src/audio_manager.py:111): list the
folder (empty on error), keep supported extensions, join, and stable-sort
by natural key of the basename. -/
def folderAudioFiles (fs : FileSystem) (folder : String) : List String :=
  match fs.listDir folder with
  | none => []
  | some entries =>
    let files := (entries.filter (fun f => extSupported f)).map (fun f => pathJoin folder f)
    files.mergeSort trackLe

/-- `_expand_source(path)` (src/audio_manager.py:126). -/
def expandSource (fs : FileSystem) (path : String) : List String :=
  let p := pyStrip path
  if p = "" then []
  else if fs.isDir p then folderAudioFiles fs p
  else if fs.isFile p && extSupported p then [p]
  else []

/-! ## Playback Engine

The module-level globals of `audio_manager.py` form `EngineState`.  External
`afplay` process activity is recorded in a trace: `spawn` carries the pid,
(playlist, track index) of the spawned player and the list of audio pids
alive at the instant of the spawn; `term` is a successful
terminate-and-wait (the terminate/kill-on-timeout ladder collapses to one
successful termination); `killAll` is the `pkill -9 afplay` sweep, which
removes every live audio pid, tracked or stray. -/

/-- Observable process events. -/
inductive Ev where
  | spawn (pid playlistId trackIndex : Nat) (priorLive : List Nat)
  | term (pid : Nat)
  | killAll
deriving DecidableEq, Repr

/-- The engine's mutable module-level state, plus the environment it reads
(filesystem, today's date) and the persistent config store behind
`get_config`/`write_config`. -/
structure EngineState where
  fs : FileSystem
  today : PyDate
  store : Config
  cfgRef : Config
  nativeProcess : Option Nat
  livePids : List Nat
  nativePlaying : Bool
  currentPlaylistId : Nat
  currentTrackIndex : Nat
  playlists : Nat → List String
  playlistKeys : List Nat
  playlistLoops : Nat → Bool
  playbackQueue : List (Nat × Bool)
  queueIndex : Nat
  audioVolume : Nat
  trackPaused : Bool
  trackPausedPosition : Nat
  nextPid : Nat
  trace : List Ev

/-- `pkill -9 afplay`: every live audio process dies (`_kill_all_afplay`,
src/audio_manager.py:612). -/
def killAllAfplay (s : EngineState) : EngineState :=
  { s with livePids := [], trace := s.trace ++ [Ev.killAll] }

/-- Terminate-and-wait on the tracked process, if any (the body of the
`if _native_process:` blocks). -/
def termNative (s : EngineState) : EngineState :=
  match s.nativeProcess with
  | some pid =>
    { s with livePids := s.livePids.filter (fun q => q ≠ pid),
             nativeProcess := none,
             trace := s.trace ++ [Ev.term pid] }
  | none => s

/-- `_stop_current_process()` (src/audio_manager.py:397): terminate the
tracked process, then sweep strays. -/
def stopCurrentProcess (s : EngineState) : EngineState :=
  killAllAfplay (termNative s)

/-- `_native_stop()` (src/audio_manager.py:626). -/
def nativeStop (s : EngineState) : EngineState :=
  killAllAfplay (termNative { s with nativePlaying := false })

/-- `_save_track_position(playlist_id, track_index, time_position)`
(src/audio_manager.py:347): read the store, update the two keys, write it
back and let `_cfg_ref` point at the result. -/
def saveTrackPosition (pid idx tpos : Nat) (s : EngineState) : EngineState :=
  let cfg :=
    { s.store with
      audio_track_position := setF s.store.audio_track_position pid idx
      audio_time_position := setF s.store.audio_time_position pid tpos }
  { s with store := cfg, cfgRef := cfg }

/-- `_mark_playlist_completed_today(playlist_id)` (src/audio_manager.py:367):
record today's ISO date and reset the track and time positions to 0. -/
def markCompletedToday (pid : Nat) (s : EngineState) : EngineState :=
  let cfg :=
    { s.store with
      audio_playlist_completed_date :=
        setF s.store.audio_playlist_completed_date pid (isoDateStr s.today)
      audio_track_position := setF s.store.audio_track_position pid 0
      audio_time_position := setF s.store.audio_time_position pid 0 }
  { s with store := cfg, cfgRef := cfg }

/-- `_is_playlist_completed_today(cfg, playlist_id)` (src/audio_manager.py:386). -/
def isPlaylistCompletedToday (cfg : Config) (today : PyDate) (pid : Nat) : Bool :=
  cfg.audio_playlist_completed_date pid == isoDateStr today

/-- `_get_track_position(cfg, playlist_id)` (src/audio_manager.py:362). -/
def getTrackPosition (cfg : Config) (pid : Nat) : Nat :=
  cfg.audio_track_position pid

/-- The three mutually recursive internal engine calls. -/
inductive Call where
  | play
  | advance
  | start (playlistId : Nat) (loops : Bool)
deriving DecidableEq, Repr

/-- The mutually recursive core of the engine, driven by fuel:
`Call.play` is `_native_play_current_track` (src/audio_manager.py:420),
`Call.advance` is `_advance_to_next_playlist` (src/audio_manager.py:506),
`Call.start` is `_start_playlist` (src/audio_manager.py:531).
Out of fuel, the state is returned unchanged; every theorem below holds for
all fuel values or supplies enough fuel for the call to complete. -/
def engineRun : Nat → Call → EngineState → EngineState
  | 0, _, s => s
  | fuel + 1, Call.play, s =>
    let s₁ := stopCurrentProcess s
    if s₁.currentPlaylistId = 0 ∨ s₁.currentPlaylistId ∉ s₁.playlistKeys then
      { s₁ with nativePlaying := false }
    else
      let playlist := s₁.playlists s₁.currentPlaylistId
      if playlist.isEmpty ∨ playlist.length ≤ s₁.currentTrackIndex then
        engineRun fuel Call.advance s₁
      else
        let path := playlist.getD s₁.currentTrackIndex ""
        if s₁.fs.pathExists path = false then
          let s₂ := { s₁ with currentTrackIndex := s₁.currentTrackIndex + 1 }
          let s₃ := saveTrackPosition s₂.currentPlaylistId s₂.currentTrackIndex 0 s₂
          engineRun fuel Call.play s₃
        else
          { s₁ with
            trackPaused := false
            nativeProcess := some s₁.nextPid
            livePids := s₁.livePids ++ [s₁.nextPid]
            nativePlaying := true
            nextPid := s₁.nextPid + 1
            trace := s₁.trace ++
              [Ev.spawn s₁.nextPid s₁.currentPlaylistId s₁.currentTrackIndex s₁.livePids] }
  | fuel + 1, Call.advance, s =>
    let s₁ :=
      if 0 < s.currentPlaylistId ∧ s.playlistLoops s.currentPlaylistId = false then
        markCompletedToday s.currentPlaylistId s
      else s
    let s₂ := { s₁ with queueIndex := s₁.queueIndex + 1 }
    if s₂.playbackQueue.length ≤ s₂.queueIndex then
      { s₂ with nativePlaying := false, currentPlaylistId := 0 }
    else
      let nxt := s₂.playbackQueue.getD s₂.queueIndex (0, false)
      engineRun fuel (Call.start nxt.1 nxt.2) s₂
  | fuel + 1, Call.start pid loops, s =>
    let s₁ := stopCurrentProcess s
    let s₂ := { s₁ with cfgRef := s₁.store }
    let playlist := s₂.playlists pid
    if playlist.isEmpty then
      engineRun fuel Call.advance s₂
    else if loops = false ∧ isPlaylistCompletedToday s₂.cfgRef s₂.today pid = true then
      if s₂.queueIndex + 1 < s₂.playbackQueue.length then
        let s₃ := { s₂ with queueIndex := s₂.queueIndex + 1 }
        let nxt := s₃.playbackQueue.getD s₃.queueIndex (0, false)
        engineRun fuel (Call.start nxt.1 nxt.2) s₃
      else
        { s₂ with nativePlaying := false, currentPlaylistId := 0 }
    else
      let s₃ :=
        { s₂ with currentPlaylistId := pid, playlistLoops := setF s₂.playlistLoops pid loops }
      let saved := getTrackPosition s₃.cfgRef pid
      let resumeIdx : Option Nat :=
        if playlist.length ≤ saved then (if loops then some 0 else none) else some saved
      match resumeIdx with
      | none =>
        let s₄ := markCompletedToday pid s₃
        engineRun fuel Call.advance s₄
      | some idx =>
        let s₄ := { s₃ with currentTrackIndex := idx }
        let s₅ :=
          if 0 < s₄.cfgRef.audio_time_position pid then
            let cfg := { s₄.cfgRef with
              audio_time_position := setF s₄.cfgRef.audio_time_position pid 0 }
            { s₄ with cfgRef := cfg, store := cfg }
          else s₄
        let s₆ :=
          { s₅ with trackPaused := false, trackPausedPosition := 0, nativePlaying := true }
        engineRun fuel Call.play s₆

/-! ### External events

Each public entry point of the module is one event.  `setup` reads the
persistent store (its caller passes `get_config()`); `trackCompleted` is the
background waiter observing the tracked process's exit (on a natural finish
the process is already gone, so the event first removes it from the live
set); the rest are the user-facing controls. -/

/-- `setup_audio_player(cfg)` (src/audio_manager.py:661). -/
def stepSetup (fuel : Nat) (s : EngineState) : EngineState :=
  let s₁ := killAllAfplay s
  let s₂ := nativeStop s₁
  let cfg := s₂.store
  let s₃ := { s₂ with cfgRef := cfg, audioVolume := orDefault cfg.audio_volume 50 }
  let pls := fun pid =>
    if pid = 1 ∨ pid = 2 ∨ pid = 3 then expandSource s₃.fs (cfg.audio_playlist_path pid)
    else []
  let s₄ := { s₃ with playlists := pls, playlistKeys := [1, 2, 3] }
  let ci := getCycleInfo cfg s₄.today
  if ci.is_break = true then s₄
  else
    let effectiveDay := getEffectiveDay cfg s₄.today
    let queue := (getPlaylistsForDay effectiveDay).filter
      (fun pb => cfg.audio_playlist_enabled pb.1 && !(s₄.playlists pb.1).isEmpty)
    let s₅ := { s₄ with playbackQueue := queue }
    if queue.isEmpty then s₅
    else
      let s₆ := { s₅ with queueIndex := 0 }
      let fst := queue.getD 0 (0, false)
      engineRun fuel (Call.start fst.1 fst.2) s₆

/-- The `_wait_and_next` waiter body (src/audio_manager.py:461) firing after
the tracked process exits.  A stale waiter (engine stopped out-of-band,
`_native_playing` false) takes no action. -/
def stepTrackCompleted (fuel : Nat) (s : EngineState) : EngineState :=
  let s₁ :=
    match s.nativeProcess with
    | some pid => { s with livePids := s.livePids.filter (fun q => q ≠ pid) }
    | none => s
  if s₁.nativePlaying = false then s₁
  else
    let s₂ := { s₁ with currentTrackIndex := s₁.currentTrackIndex + 1 }
    let s₃ := saveTrackPosition s₂.currentPlaylistId s₂.currentTrackIndex 0 s₂
    let playlist := s₃.playlists s₃.currentPlaylistId
    let loops := s₃.playlistLoops s₃.currentPlaylistId
    if playlist.length ≤ s₃.currentTrackIndex then
      if loops then
        let s₄ := { s₃ with currentTrackIndex := 0 }
        let s₅ := saveTrackPosition s₄.currentPlaylistId 0 0 s₄
        engineRun fuel Call.play s₅
      else engineRun fuel Call.advance s₃
    else engineRun fuel Call.play s₃

/-- `skip_to_next_track()` (src/audio_manager.py:878). -/
def stepSkipTrack (fuel : Nat) (s : EngineState) : EngineState :=
  if s.nativePlaying = false ∨ s.currentPlaylistId = 0 then s
  else
    let s₁ := nativeStop s
    let s₂ := { s₁ with currentTrackIndex := s₁.currentTrackIndex + 1 }
    let playlist := s₂.playlists s₂.currentPlaylistId
    if playlist.length ≤ s₂.currentTrackIndex then
      if s₂.playlistLoops s₂.currentPlaylistId then
        let s₃ := { s₂ with currentTrackIndex := 0 }
        let s₄ := saveTrackPosition s₃.currentPlaylistId s₃.currentTrackIndex 0 s₃
        engineRun fuel Call.play s₄
      else engineRun fuel Call.advance s₂
    else
      let s₃ := saveTrackPosition s₂.currentPlaylistId s₂.currentTrackIndex 0 s₂
      engineRun fuel Call.play s₃

/-- `skip_to_next_playlist()` (src/audio_manager.py:900). -/
def stepSkipPlaylist (fuel : Nat) (s : EngineState) : EngineState :=
  if s.nativePlaying = false then s
  else engineRun fuel Call.advance (nativeStop s)

/-- `pause_audio()` (src/audio_manager.py:785): freeze the display position
and kill the tracked process (the paused elapsed-time float is elided). -/
def stepPause (s : EngineState) : EngineState :=
  if s.nativePlaying = false ∨ s.trackPaused then s
  else termNative { s with trackPaused := true, trackPausedPosition := 0 }

/-- `resume_audio()` (src/audio_manager.py:809). -/
def stepResume (fuel : Nat) (s : EngineState) : EngineState :=
  if s.trackPaused = false ∨ s.currentPlaylistId = 0 then s
  else
    let playlist := s.playlists s.currentPlaylistId
    if playlist.isEmpty ∨ playlist.length ≤ s.currentTrackIndex then s
    else if s.fs.pathExists (playlist.getD s.currentTrackIndex "") = false then s
    else
      let s₁ := stopCurrentProcess s
      let s₂ := { s₁ with trackPaused := false, trackPausedPosition := 0, nativePlaying := true }
      engineRun fuel Call.play s₂

/-- `seek_to_position(position)` (src/audio_manager.py:842): kill the tracked
process, record the (elided, here abstract) position as paused, and restart
the same track if it was playing. -/
def stepSeek (fuel : Nat) (pos : Nat) (s : EngineState) : EngineState :=
  if s.currentPlaylistId = 0 then s
  else
    let playlist := s.playlists s.currentPlaylistId
    if playlist.isEmpty ∨ playlist.length ≤ s.currentTrackIndex then s
    else
      let wasPlaying := s.nativePlaying && !s.trackPaused
      let s₁ := termNative s
      let s₂ := { s₁ with trackPausedPosition := pos, trackPaused := true }
      if wasPlaying then stepResume fuel s₂ else s₂

/-- `toggle_pause()` (src/audio_manager.py:834). -/
def stepToggle (fuel : Nat) (s : EngineState) : EngineState :=
  if s.trackPaused then stepResume fuel s
  else if s.nativePlaying then stepPause s
  else s

/-- `cleanup_audio_on_quit()` (src/audio_manager.py:646). -/
def stepCleanup (s : EngineState) : EngineState :=
  let s₁ :=
    if 0 < s.currentPlaylistId ∧ (s.nativePlaying ∨ s.trackPaused) then
      saveTrackPosition s.currentPlaylistId s.currentTrackIndex 0 s
    else s
  nativeStop s₁

/-- The engine's external interface. -/
inductive Event where
  | setup
  | trackCompleted
  | skipTrack
  | skipPlaylist
  | pause
  | resume
  | togglePause
  | seek (pos : Nat)
  | stopAudio
  | cleanupQuit
deriving DecidableEq, Repr

/-- One external event (`stop_audio` is `_native_stop` behind the
`_AUDIO_AVAILABLE` guard, which is constant `True`). -/
def step (fuel : Nat) (s : EngineState) (e : Event) : EngineState :=
  match e with
  | Event.setup => stepSetup fuel s
  | Event.trackCompleted => stepTrackCompleted fuel s
  | Event.skipTrack => stepSkipTrack fuel s
  | Event.skipPlaylist => stepSkipPlaylist fuel s
  | Event.pause => stepPause s
  | Event.resume => stepResume fuel s
  | Event.togglePause => stepToggle fuel s
  | Event.seek pos => stepSeek fuel pos s
  | Event.stopAudio => nativeStop s
  | Event.cleanupQuit => stepCleanup s

/-- A run of the engine over a sequence of external events. -/
def runEvents (fuel : Nat) (s : EngineState) (evs : List Event) : EngineState :=
  evs.foldl (step fuel) s

/-- The module's state at import time: empty dicts, no process, persistent
store `cfg₀`, in environment `fs` on calendar day `today`. -/
def initState (fs : FileSystem) (today : PyDate) (cfg₀ : Config) : EngineState where
  fs := fs
  today := today
  store := cfg₀
  cfgRef := {}
  nativeProcess := none
  livePids := []
  nativePlaying := false
  currentPlaylistId := 0
  currentTrackIndex := 0
  playlists := fun _ => []
  playlistKeys := []
  playlistLoops := fun _ => false
  playbackQueue := []
  queueIndex := 0
  audioVolume := 50
  trackPaused := false
  trackPausedPosition := 0
  nextPid := 0
  trace := []

/-! ### Trace observations -/

/-- The (playlist, track) pairs of the spawn events of a trace, in order. -/
def spawnsOf (t : List Ev) : List (Nat × Nat) :=
  t.filterMap (fun e =>
    match e with
    | Ev.spawn _ pl idx _ => some (pl, idx)
    | _ => none)

/-- Number of spawn events in a trace. -/
def countSpawns (t : List Ev) : Nat :=
  (spawnsOf t).length

/-- Number of spawn events playing a track of playlist `P`. -/
def countSpawnsOf (P : Nat) (t : List Ev) : Nat :=
  ((spawnsOf t).filter (fun pb => pb.1 = P)).length

/-- Every spawn event of the trace happened with no other audio process
alive. -/
def traceClean (t : List Ev) : Prop :=
  ∀ e ∈ t, ∀ pid pl idx prior, e = Ev.spawn pid pl idx prior → prior = []

/-! ## Trace utilities -/

theorem spawnsOf_append (a b : List Ev) : spawnsOf (a ++ b) = spawnsOf a ++ spawnsOf b := by
  simp [spawnsOf]

@[simp] theorem spawnsOf_nil : spawnsOf [] = [] := rfl

@[simp] theorem spawnsOf_killAll_append (a : List Ev) :
    spawnsOf (a ++ [Ev.killAll]) = spawnsOf a := by
  simp [spawnsOf_append, spawnsOf]

@[simp] theorem spawnsOf_term_append (a : List Ev) (pid : Nat) :
    spawnsOf (a ++ [Ev.term pid]) = spawnsOf a := by
  simp [spawnsOf_append, spawnsOf]

@[simp] theorem spawnsOf_spawn_append (a : List Ev) (pid pl idx : Nat) (prior : List Nat) :
    spawnsOf (a ++ [Ev.spawn pid pl idx prior]) = spawnsOf a ++ [(pl, idx)] := by
  simp [spawnsOf_append, spawnsOf]

theorem countSpawnsOf_append_killAll (a : List Ev) (P : Nat) :
    countSpawnsOf P (a ++ [Ev.killAll]) = countSpawnsOf P a := by
  simp [countSpawnsOf]

theorem countSpawnsOf_append_term (a : List Ev) (P pid : Nat) :
    countSpawnsOf P (a ++ [Ev.term pid]) = countSpawnsOf P a := by
  simp [countSpawnsOf]

theorem countSpawnsOf_append_spawn (a : List Ev) (P pid pl idx : Nat) (prior : List Nat)
    (h : pl ≠ P) : countSpawnsOf P (a ++ [Ev.spawn pid pl idx prior]) = countSpawnsOf P a := by
  simp [countSpawnsOf, List.filter_append, h]

theorem traceClean_append (a b : List Ev) :
    traceClean (a ++ b) ↔ traceClean a ∧ traceClean b := by
  constructor
  · intro h
    exact ⟨fun e he => h e (List.mem_append_left _ he),
           fun e he => h e (List.mem_append_right _ he)⟩
  · rintro ⟨h₁, h₂⟩ e he
    rcases List.mem_append.mp he with h | h
    · exact h₁ e h
    · exact h₂ e h

theorem traceClean_killAll : traceClean [Ev.killAll] := by
  intro e he pid pl idx prior hh
  simp at he
  subst he
  cases hh

theorem traceClean_term (pid : Nat) : traceClean [Ev.term pid] := by
  intro e he p pl idx prior hh
  simp at he
  subst he
  cases hh

theorem traceClean_spawn_nil (pid pl idx : Nat) : traceClean [Ev.spawn pid pl idx []] := by
  intro e he p q r prior hh
  simp at he
  subst he
  cases hh
  rfl

/-! ## Primitive projection lemmas -/

@[simp] theorem termNative_today (s : EngineState) : (termNative s).today = s.today := by
  unfold termNative; cases s.nativeProcess <;> rfl

@[simp] theorem termNative_store (s : EngineState) : (termNative s).store = s.store := by
  unfold termNative; cases s.nativeProcess <;> rfl

@[simp] theorem termNative_queue (s : EngineState) :
    (termNative s).playbackQueue = s.playbackQueue := by
  unfold termNative; cases s.nativeProcess <;> rfl

@[simp] theorem termNative_queueIndex (s : EngineState) :
    (termNative s).queueIndex = s.queueIndex := by
  unfold termNative; cases s.nativeProcess <;> rfl

theorem termNative_trace (s : EngineState) :
    (termNative s).trace = s.trace ∨ ∃ pid, (termNative s).trace = s.trace ++ [Ev.term pid] := by
  unfold termNative; cases s.nativeProcess
  · exact Or.inl rfl
  · exact Or.inr ⟨_, rfl⟩

theorem termNative_spawnsOf (s : EngineState) :
    spawnsOf (termNative s).trace = spawnsOf s.trace := by
  rcases termNative_trace s with h | ⟨pid, h⟩ <;> simp [h]

theorem termNative_countSpawnsOf (s : EngineState) (P : Nat) :
    countSpawnsOf P (termNative s).trace = countSpawnsOf P s.trace := by
  simp [countSpawnsOf, termNative_spawnsOf]

theorem termNative_traceClean (s : EngineState) (h : traceClean s.trace) :
    traceClean (termNative s).trace := by
  rcases termNative_trace s with he | ⟨pid, he⟩ <;> rw [he]
  · exact h
  · exact (traceClean_append _ _).mpr ⟨h, traceClean_term pid⟩

theorem termNative_livePids_le (s : EngineState) :
    (termNative s).livePids.length ≤ s.livePids.length := by
  unfold termNative; cases s.nativeProcess
  · exact Nat.le_refl _
  · exact List.length_filter_le _ _

@[simp] theorem killAllAfplay_livePids (s : EngineState) : (killAllAfplay s).livePids = [] := rfl

@[simp] theorem killAllAfplay_today (s : EngineState) : (killAllAfplay s).today = s.today := rfl

@[simp] theorem killAllAfplay_store (s : EngineState) : (killAllAfplay s).store = s.store := rfl

@[simp] theorem killAllAfplay_queue (s : EngineState) :
    (killAllAfplay s).playbackQueue = s.playbackQueue := rfl

@[simp] theorem killAllAfplay_queueIndex (s : EngineState) :
    (killAllAfplay s).queueIndex = s.queueIndex := rfl

@[simp] theorem killAllAfplay_spawnsOf (s : EngineState) :
    spawnsOf (killAllAfplay s).trace = spawnsOf s.trace := by
  simp [killAllAfplay]

theorem killAllAfplay_traceClean (s : EngineState) (h : traceClean s.trace) :
    traceClean (killAllAfplay s).trace := by
  unfold killAllAfplay
  exact (traceClean_append _ _).mpr ⟨h, traceClean_killAll⟩

@[simp] theorem stopCurrentProcess_livePids (s : EngineState) :
    (stopCurrentProcess s).livePids = [] := rfl

@[simp] theorem stopCurrentProcess_today (s : EngineState) :
    (stopCurrentProcess s).today = s.today := by
  simp [stopCurrentProcess]

@[simp] theorem stopCurrentProcess_store (s : EngineState) :
    (stopCurrentProcess s).store = s.store := by
  simp [stopCurrentProcess]

@[simp] theorem stopCurrentProcess_queue (s : EngineState) :
    (stopCurrentProcess s).playbackQueue = s.playbackQueue := by
  simp [stopCurrentProcess]

@[simp] theorem stopCurrentProcess_queueIndex (s : EngineState) :
    (stopCurrentProcess s).queueIndex = s.queueIndex := by
  simp [stopCurrentProcess]

theorem stopCurrentProcess_spawnsOf (s : EngineState) :
    spawnsOf (stopCurrentProcess s).trace = spawnsOf s.trace := by
  unfold stopCurrentProcess killAllAfplay
  simp [termNative_spawnsOf]

theorem stopCurrentProcess_traceClean (s : EngineState) (h : traceClean s.trace) :
    traceClean (stopCurrentProcess s).trace :=
  killAllAfplay_traceClean _ (termNative_traceClean s h)

@[simp] theorem nativeStop_livePids (s : EngineState) : (nativeStop s).livePids = [] := rfl

@[simp] theorem nativeStop_today (s : EngineState) : (nativeStop s).today = s.today := by
  simp [nativeStop]

@[simp] theorem nativeStop_store (s : EngineState) : (nativeStop s).store = s.store := by
  simp [nativeStop]

@[simp] theorem nativeStop_queue (s : EngineState) :
    (nativeStop s).playbackQueue = s.playbackQueue := by
  simp [nativeStop]

@[simp] theorem nativeStop_queueIndex (s : EngineState) :
    (nativeStop s).queueIndex = s.queueIndex := by
  simp [nativeStop]

theorem nativeStop_spawnsOf (s : EngineState) :
    spawnsOf (nativeStop s).trace = spawnsOf s.trace := by
  unfold nativeStop killAllAfplay
  have := termNative_spawnsOf { s with nativePlaying := false }
  simp_all

theorem nativeStop_traceClean (s : EngineState) (h : traceClean s.trace) :
    traceClean (nativeStop s).trace :=
  killAllAfplay_traceClean _ (termNative_traceClean { s with nativePlaying := false } h)

@[simp] theorem saveTrackPosition_today (pid idx tpos : Nat) (s : EngineState) :
    (saveTrackPosition pid idx tpos s).today = s.today := rfl

@[simp] theorem saveTrackPosition_trace (pid idx tpos : Nat) (s : EngineState) :
    (saveTrackPosition pid idx tpos s).trace = s.trace := rfl

@[simp] theorem saveTrackPosition_livePids (pid idx tpos : Nat) (s : EngineState) :
    (saveTrackPosition pid idx tpos s).livePids = s.livePids := rfl

@[simp] theorem saveTrackPosition_queue (pid idx tpos : Nat) (s : EngineState) :
    (saveTrackPosition pid idx tpos s).playbackQueue = s.playbackQueue := rfl

@[simp] theorem saveTrackPosition_queueIndex (pid idx tpos : Nat) (s : EngineState) :
    (saveTrackPosition pid idx tpos s).queueIndex = s.queueIndex := rfl

@[simp] theorem saveTrackPosition_completed (pid idx tpos : Nat) (s : EngineState) :
    (saveTrackPosition pid idx tpos s).store.audio_playlist_completed_date =
      s.store.audio_playlist_completed_date := rfl

@[simp] theorem markCompletedToday_today (pid : Nat) (s : EngineState) :
    (markCompletedToday pid s).today = s.today := rfl

@[simp] theorem markCompletedToday_trace (pid : Nat) (s : EngineState) :
    (markCompletedToday pid s).trace = s.trace := rfl

@[simp] theorem markCompletedToday_livePids (pid : Nat) (s : EngineState) :
    (markCompletedToday pid s).livePids = s.livePids := rfl

@[simp] theorem markCompletedToday_queue (pid : Nat) (s : EngineState) :
    (markCompletedToday pid s).playbackQueue = s.playbackQueue := rfl

@[simp] theorem markCompletedToday_queueIndex (pid : Nat) (s : EngineState) :
    (markCompletedToday pid s).queueIndex = s.queueIndex := rfl

theorem markCompletedToday_completed (pid q : Nat) (s : EngineState) :
    (markCompletedToday pid s).store.audio_playlist_completed_date q =
      if q = pid then isoDateStr s.today else s.store.audio_playlist_completed_date q := rfl

/-! ### Further projection lemmas -/

@[simp] theorem termNative_nativePlaying (s : EngineState) :
    (termNative s).nativePlaying = s.nativePlaying := by unfold termNative; cases s.nativeProcess <;> rfl

@[simp] theorem termNative_currentPlaylistId (s : EngineState) :
    (termNative s).currentPlaylistId = s.currentPlaylistId := by unfold termNative; cases s.nativeProcess <;> rfl

@[simp] theorem termNative_currentTrackIndex (s : EngineState) :
    (termNative s).currentTrackIndex = s.currentTrackIndex := by unfold termNative; cases s.nativeProcess <;> rfl

@[simp] theorem termNative_playlists (s : EngineState) :
    (termNative s).playlists = s.playlists := by unfold termNative; cases s.nativeProcess <;> rfl

@[simp] theorem termNative_playlistKeys (s : EngineState) :
    (termNative s).playlistKeys = s.playlistKeys := by unfold termNative; cases s.nativeProcess <;> rfl

@[simp] theorem termNative_playlistLoops (s : EngineState) :
    (termNative s).playlistLoops = s.playlistLoops := by unfold termNative; cases s.nativeProcess <;> rfl

@[simp] theorem termNative_cfgRef (s : EngineState) :
    (termNative s).cfgRef = s.cfgRef := by unfold termNative; cases s.nativeProcess <;> rfl

@[simp] theorem termNative_fs (s : EngineState) :
    (termNative s).fs = s.fs := by unfold termNative; cases s.nativeProcess <;> rfl

@[simp] theorem termNative_nextPid (s : EngineState) :
    (termNative s).nextPid = s.nextPid := by unfold termNative; cases s.nativeProcess <;> rfl

@[simp] theorem termNative_trackPaused (s : EngineState) :
    (termNative s).trackPaused = s.trackPaused := by unfold termNative; cases s.nativeProcess <;> rfl

@[simp] theorem killAllAfplay_nativeProcess (s : EngineState) :
    (killAllAfplay s).nativeProcess = s.nativeProcess := rfl

@[simp] theorem killAllAfplay_nativePlaying (s : EngineState) :
    (killAllAfplay s).nativePlaying = s.nativePlaying := rfl

@[simp] theorem killAllAfplay_currentPlaylistId (s : EngineState) :
    (killAllAfplay s).currentPlaylistId = s.currentPlaylistId := rfl

@[simp] theorem killAllAfplay_currentTrackIndex (s : EngineState) :
    (killAllAfplay s).currentTrackIndex = s.currentTrackIndex := rfl

@[simp] theorem killAllAfplay_playlists (s : EngineState) :
    (killAllAfplay s).playlists = s.playlists := rfl

@[simp] theorem killAllAfplay_playlistKeys (s : EngineState) :
    (killAllAfplay s).playlistKeys = s.playlistKeys := rfl

@[simp] theorem killAllAfplay_playlistLoops (s : EngineState) :
    (killAllAfplay s).playlistLoops = s.playlistLoops := rfl

@[simp] theorem killAllAfplay_cfgRef (s : EngineState) :
    (killAllAfplay s).cfgRef = s.cfgRef := rfl

@[simp] theorem killAllAfplay_fs (s : EngineState) :
    (killAllAfplay s).fs = s.fs := rfl

@[simp] theorem killAllAfplay_nextPid (s : EngineState) :
    (killAllAfplay s).nextPid = s.nextPid := rfl

@[simp] theorem killAllAfplay_trackPaused (s : EngineState) :
    (killAllAfplay s).trackPaused = s.trackPaused := rfl

@[simp] theorem stopCurrentProcess_nativePlaying (s : EngineState) :
    (stopCurrentProcess s).nativePlaying = s.nativePlaying := by simp [stopCurrentProcess]

@[simp] theorem stopCurrentProcess_currentPlaylistId (s : EngineState) :
    (stopCurrentProcess s).currentPlaylistId = s.currentPlaylistId := by simp [stopCurrentProcess]

@[simp] theorem stopCurrentProcess_currentTrackIndex (s : EngineState) :
    (stopCurrentProcess s).currentTrackIndex = s.currentTrackIndex := by simp [stopCurrentProcess]

@[simp] theorem stopCurrentProcess_playlists (s : EngineState) :
    (stopCurrentProcess s).playlists = s.playlists := by simp [stopCurrentProcess]

@[simp] theorem stopCurrentProcess_playlistKeys (s : EngineState) :
    (stopCurrentProcess s).playlistKeys = s.playlistKeys := by simp [stopCurrentProcess]

@[simp] theorem stopCurrentProcess_playlistLoops (s : EngineState) :
    (stopCurrentProcess s).playlistLoops = s.playlistLoops := by simp [stopCurrentProcess]

@[simp] theorem stopCurrentProcess_cfgRef (s : EngineState) :
    (stopCurrentProcess s).cfgRef = s.cfgRef := by simp [stopCurrentProcess]

@[simp] theorem stopCurrentProcess_fs (s : EngineState) :
    (stopCurrentProcess s).fs = s.fs := by simp [stopCurrentProcess]

@[simp] theorem stopCurrentProcess_nextPid (s : EngineState) :
    (stopCurrentProcess s).nextPid = s.nextPid := by simp [stopCurrentProcess]

@[simp] theorem stopCurrentProcess_trackPaused (s : EngineState) :
    (stopCurrentProcess s).trackPaused = s.trackPaused := by simp [stopCurrentProcess]

@[simp] theorem nativeStop_currentPlaylistId (s : EngineState) :
    (nativeStop s).currentPlaylistId = s.currentPlaylistId := by simp [nativeStop]

@[simp] theorem nativeStop_currentTrackIndex (s : EngineState) :
    (nativeStop s).currentTrackIndex = s.currentTrackIndex := by simp [nativeStop]

@[simp] theorem nativeStop_playlists (s : EngineState) :
    (nativeStop s).playlists = s.playlists := by simp [nativeStop]

@[simp] theorem nativeStop_playlistKeys (s : EngineState) :
    (nativeStop s).playlistKeys = s.playlistKeys := by simp [nativeStop]

@[simp] theorem nativeStop_playlistLoops (s : EngineState) :
    (nativeStop s).playlistLoops = s.playlistLoops := by simp [nativeStop]

@[simp] theorem nativeStop_cfgRef (s : EngineState) :
    (nativeStop s).cfgRef = s.cfgRef := by simp [nativeStop]

@[simp] theorem nativeStop_fs (s : EngineState) :
    (nativeStop s).fs = s.fs := by simp [nativeStop]

@[simp] theorem nativeStop_nextPid (s : EngineState) :
    (nativeStop s).nextPid = s.nextPid := by simp [nativeStop]

@[simp] theorem nativeStop_trackPaused (s : EngineState) :
    (nativeStop s).trackPaused = s.trackPaused := by simp [nativeStop]

@[simp] theorem saveTrackPosition_currentPlaylistId (pid idx tpos : Nat) (s : EngineState) :
    (saveTrackPosition pid idx tpos s).currentPlaylistId = s.currentPlaylistId := rfl

@[simp] theorem saveTrackPosition_currentTrackIndex (pid idx tpos : Nat) (s : EngineState) :
    (saveTrackPosition pid idx tpos s).currentTrackIndex = s.currentTrackIndex := rfl

@[simp] theorem saveTrackPosition_playlists (pid idx tpos : Nat) (s : EngineState) :
    (saveTrackPosition pid idx tpos s).playlists = s.playlists := rfl

@[simp] theorem saveTrackPosition_playlistKeys (pid idx tpos : Nat) (s : EngineState) :
    (saveTrackPosition pid idx tpos s).playlistKeys = s.playlistKeys := rfl

@[simp] theorem saveTrackPosition_playlistLoops (pid idx tpos : Nat) (s : EngineState) :
    (saveTrackPosition pid idx tpos s).playlistLoops = s.playlistLoops := rfl

@[simp] theorem saveTrackPosition_nativePlaying (pid idx tpos : Nat) (s : EngineState) :
    (saveTrackPosition pid idx tpos s).nativePlaying = s.nativePlaying := rfl

@[simp] theorem saveTrackPosition_nativeProcess (pid idx tpos : Nat) (s : EngineState) :
    (saveTrackPosition pid idx tpos s).nativeProcess = s.nativeProcess := rfl

@[simp] theorem saveTrackPosition_nextPid (pid idx tpos : Nat) (s : EngineState) :
    (saveTrackPosition pid idx tpos s).nextPid = s.nextPid := rfl

@[simp] theorem saveTrackPosition_trackPaused (pid idx tpos : Nat) (s : EngineState) :
    (saveTrackPosition pid idx tpos s).trackPaused = s.trackPaused := rfl

@[simp] theorem saveTrackPosition_fs (pid idx tpos : Nat) (s : EngineState) :
    (saveTrackPosition pid idx tpos s).fs = s.fs := rfl

@[simp] theorem markCompletedToday_currentPlaylistId (pid : Nat) (s : EngineState) :
    (markCompletedToday pid s).currentPlaylistId = s.currentPlaylistId := rfl

@[simp] theorem markCompletedToday_currentTrackIndex (pid : Nat) (s : EngineState) :
    (markCompletedToday pid s).currentTrackIndex = s.currentTrackIndex := rfl

@[simp] theorem markCompletedToday_playlists (pid : Nat) (s : EngineState) :
    (markCompletedToday pid s).playlists = s.playlists := rfl

@[simp] theorem markCompletedToday_playlistKeys (pid : Nat) (s : EngineState) :
    (markCompletedToday pid s).playlistKeys = s.playlistKeys := rfl

@[simp] theorem markCompletedToday_playlistLoops (pid : Nat) (s : EngineState) :
    (markCompletedToday pid s).playlistLoops = s.playlistLoops := rfl

@[simp] theorem markCompletedToday_nativePlaying (pid : Nat) (s : EngineState) :
    (markCompletedToday pid s).nativePlaying = s.nativePlaying := rfl

@[simp] theorem markCompletedToday_nativeProcess (pid : Nat) (s : EngineState) :
    (markCompletedToday pid s).nativeProcess = s.nativeProcess := rfl

@[simp] theorem markCompletedToday_nextPid (pid : Nat) (s : EngineState) :
    (markCompletedToday pid s).nextPid = s.nextPid := rfl

@[simp] theorem markCompletedToday_trackPaused (pid : Nat) (s : EngineState) :
    (markCompletedToday pid s).trackPaused = s.trackPaused := rfl

@[simp] theorem markCompletedToday_fs (pid : Nat) (s : EngineState) :
    (markCompletedToday pid s).fs = s.fs := rfl

@[simp] theorem nativeStop_nativePlaying (s : EngineState) :
    (nativeStop s).nativePlaying = false := by simp [nativeStop]

@[simp] theorem stopCurrentProcess_nativeProcess (s : EngineState) :
    (stopCurrentProcess s).nativeProcess = none := by
  unfold stopCurrentProcess killAllAfplay termNative
  cases h : s.nativeProcess <;> simp [h]

@[simp] theorem nativeStop_nativeProcess (s : EngineState) :
    (nativeStop s).nativeProcess = none := by
  unfold nativeStop killAllAfplay termNative
  cases h : s.nativeProcess <;> simp [h]

@[simp] theorem saveTrackPosition_trackPos (pid idx tpos : Nat) (s : EngineState) :
    (saveTrackPosition pid idx tpos s).store.audio_track_position =
      setF s.store.audio_track_position pid idx := rfl

@[simp] theorem markCompletedToday_trackPos (pid : Nat) (s : EngineState) :
    (markCompletedToday pid s).store.audio_track_position =
      setF s.store.audio_track_position pid 0 := rfl



/-! ## Engine invariants -/

theorem countSpawnsOf_stop (s : EngineState) (P : Nat) :
    countSpawnsOf P (stopCurrentProcess s).trace = countSpawnsOf P s.trace := by
  simp [countSpawnsOf, stopCurrentProcess_spawnsOf]

theorem countSpawnsOf_nativeStop (s : EngineState) (P : Nat) :
    countSpawnsOf P (nativeStop s).trace = countSpawnsOf P s.trace := by
  simp [countSpawnsOf, nativeStop_spawnsOf]

theorem getD_mem_queue (l : List (Nat × Bool)) (i : Nat) (h : i < l.length) :
    l.getD i (0, false) ∈ l := by
  rw [List.getD_eq_getElem _ _ h]
  exact List.getElem_mem h

/-- The calendar date the engine reads never changes during a run. -/
theorem engineRun_today (fuel : Nat) : ∀ c s, (engineRun fuel c s).today = s.today := by
  induction fuel with
  | zero => intro c s; rfl
  | succ n ih =>
    intro c s
    cases c <;> simp only [engineRun] <;> repeat' split
    all_goals simp [ih]

/-- The internal engine calls never rebuild the playback queue. -/
theorem engineRun_queue (fuel : Nat) :
    ∀ c s, (engineRun fuel c s).playbackQueue = s.playbackQueue := by
  induction fuel with
  | zero => intro c s; rfl
  | succ n ih =>
    intro c s
    cases c <;> simp only [engineRun] <;> repeat' split
    all_goals simp [ih]

/-- The queue index only ever moves forward. -/
theorem engineRun_queueIndex_le (fuel : Nat) :
    ∀ c s, s.queueIndex ≤ (engineRun fuel c s).queueIndex := by
  induction fuel with
  | zero => intro c s; exact Nat.le_refl _
  | succ n ih =>
    intro c s
    cases c <;> simp only [engineRun] <;> repeat' split
    all_goals first
      | (simp; done)
      | (refine Nat.le_trans ?_ (ih _ _); simp; done)
      | (refine Nat.le_trans ?_ (ih _ _); simp; omega)
      | (simp; omega)

/-- A completed-today marker is only ever rewritten with today's date, so it
survives every internal engine call within the same calendar day. -/
theorem engineRun_marker (fuel : Nat) : ∀ c s P,
    s.store.audio_playlist_completed_date P = isoDateStr s.today →
    (engineRun fuel c s).store.audio_playlist_completed_date P = isoDateStr s.today := by
  induction fuel with
  | zero => intro c s P h; exact h
  | succ n ih =>
    intro c s P h
    have key : ∀ c' (X : EngineState), X.today = s.today →
        X.store.audio_playlist_completed_date P = isoDateStr s.today →
        (engineRun n c' X).store.audio_playlist_completed_date P = isoDateStr s.today := by
      intro c' X ht hx
      rw [← ht]
      exact ih c' X P (by rw [ht]; exact hx)
    cases c <;> simp only [engineRun] <;> repeat' split
    all_goals try refine key _ _ (by simp) ?_
    all_goals try simp only [markCompletedToday_completed, saveTrackPosition_completed,
      killAllAfplay_store, stopCurrentProcess_store, nativeStop_store, termNative_store]
    all_goals first | (split <;> simp [h]) | simp [h]

/-- The single-process discipline: clean trace (every spawn at an empty live
set) and at most one live audio process. -/
def GoodProc (s : EngineState) : Prop :=
  traceClean s.trace ∧ s.livePids.length ≤ 1

theorem engineRun_good (fuel : Nat) : ∀ c s, GoodProc s → GoodProc (engineRun fuel c s) := by
  induction fuel with
  | zero => intro c s h; exact h
  | succ n ih =>
    intro c s h
    cases c <;> simp only [engineRun] <;> repeat' split
    all_goals try refine ih _ _ ?_
    all_goals refine ⟨?_, ?_⟩
    all_goals try simp only [saveTrackPosition_trace, saveTrackPosition_livePids,
      markCompletedToday_trace, markCompletedToday_livePids,
      stopCurrentProcess_livePids, killAllAfplay_livePids]
    all_goals first
      | exact h.1
      | exact h.2
      | exact stopCurrentProcess_traceClean _ h.1
      | exact (traceClean_append _ _).mpr
          ⟨stopCurrentProcess_traceClean _ h.1, traceClean_spawn_nil _ _ _⟩
      | simp
      | (simp; exact h.2)

/-- Requirement on a pending internal call for the no-replay lemma
`engineRun_noSpawn`: a direct play must not already sit on `P`, and a start
of `P` must carry the non-looping flag. -/
def callOK (P : Nat) : Call → EngineState → Prop
  | Call.play, s => s.currentPlaylistId ≠ P
  | Call.advance, _ => True
  | Call.start pid lo, _ => pid = P → lo = false

/-- A playlist whose completed-today marker is set never has a track spawned
by any internal engine call (its starts hit the completed-check and skip). -/
theorem engineRun_noSpawn (fuel : Nat) : ∀ c s P,
    s.store.audio_playlist_completed_date P = isoDateStr s.today →
    callOK P c s →
    (∀ pb ∈ s.playbackQueue, pb.1 = P → pb.2 = false) →
    countSpawnsOf P (engineRun fuel c s).trace = countSpawnsOf P s.trace := by
  induction fuel with
  | zero => intro c s P _ _ _; rfl
  | succ n ih =>
    intro c s P hm hc hq
    cases c with
    | play =>
      simp only [engineRun]
      split
      · exact countSpawnsOf_stop s P
      · split
        · rw [ih Call.advance _ P (by simpa using hm) trivial (by simpa using hq)]
          exact countSpawnsOf_stop s P
        · split
          · rw [ih Call.play _ P (by simpa using hm) (by simpa [callOK] using hc)
              (by simpa using hq)]
            simp only [saveTrackPosition_trace]
            exact countSpawnsOf_stop s P
          · have hpl : (stopCurrentProcess s).currentPlaylistId ≠ P := by
              simpa [callOK] using hc
            rw [countSpawnsOf_append_spawn _ _ _ _ _ _ hpl]
            exact countSpawnsOf_stop s P
    | advance =>
      simp only [engineRun]
      split <;> split
      · simp [countSpawnsOf]
      · rename_i hmark hlen
        refine Eq.trans (ih _ _ P ?_ ?_ ?_) ?_
        · simp only [markCompletedToday_today]
          rw [markCompletedToday_completed]
          split <;> simp [hm]
        · simp only [callOK]
          intro hfst
          have hlt : s.queueIndex + 1 < s.playbackQueue.length := by
            simp only [markCompletedToday_queue, markCompletedToday_queueIndex] at hlen
            omega
          have hmem := hq _ (getD_mem_queue s.playbackQueue (s.queueIndex + 1) hlt)
          simp only [markCompletedToday_queue, markCompletedToday_queueIndex] at hfst
          exact hmem hfst
        · simpa using hq
        · simp [countSpawnsOf]
      · simp [countSpawnsOf]
      · rename_i hmark hlen
        refine Eq.trans (ih _ _ P ?_ ?_ ?_) ?_
        · exact hm
        · simp only [callOK]
          intro hfst
          have hlt : s.queueIndex + 1 < s.playbackQueue.length := by omega
          exact hq _ (getD_mem_queue s.playbackQueue (s.queueIndex + 1) hlt) hfst
        · exact hq
        · rfl
    | start pid loops =>
      simp only [engineRun]
      split
      · rw [ih Call.advance _ P (by simpa using hm) trivial (by simpa using hq)]
        exact countSpawnsOf_stop s P
      · split
        · split
          · rename_i hskip hlen
            refine Eq.trans (ih _ _ P (by simpa using hm) ?_ (by simpa using hq)) ?_
            · simp only [callOK]
              intro hfst
              have hlt : s.queueIndex + 1 < s.playbackQueue.length := by
                simpa using hlen
              have hmem := hq _ (getD_mem_queue s.playbackQueue (s.queueIndex + 1) hlt)
              simp only [stopCurrentProcess_queue, stopCurrentProcess_queueIndex] at hfst
              simpa using hmem hfst
            · exact countSpawnsOf_stop s P
          · exact countSpawnsOf_stop s P
        · rename_i hnotskip
          have hpidP : pid ≠ P := by
            intro hpe
            subst hpe
            apply hnotskip
            refine ⟨hc rfl, ?_⟩
            simp only [isPlaylistCompletedToday, stopCurrentProcess_store,
              stopCurrentProcess_today]
            rw [hm]
            simp
          split
          · refine Eq.trans (ih Call.advance _ P ?_ trivial ?_) ?_
            · simp only [markCompletedToday_today]
              rw [markCompletedToday_completed]
              split <;> simp_all
            · simpa using hq
            · simp only [markCompletedToday_trace]
              exact countSpawnsOf_stop s P
          · refine Eq.trans (ih Call.play _ P ?_ ?_ ?_) ?_
            · split <;> simpa using hm
            · simp only [callOK]
              split <;> simpa using hpidP
            · split <;> simpa using hq
            · split <;> (simp only []; exact countSpawnsOf_stop s P)

/-! ## Event-level invariants -/

theorem stepResume_today (fuel : Nat) (s : EngineState) :
    (stepResume fuel s).today = s.today := by
  simp only [stepResume]
  repeat' split
  all_goals simp [engineRun_today]

theorem stepPause_today (s : EngineState) : (stepPause s).today = s.today := by
  simp only [stepPause]
  split
  · rfl
  · simp

theorem step_today (fuel : Nat) (e : Event) (s : EngineState) :
    (step fuel s e).today = s.today := by
  cases e
  case resume => exact stepResume_today fuel s
  case pause => exact stepPause_today s
  case togglePause =>
    simp only [step, stepToggle]
    repeat' split
    · exact stepResume_today fuel s
    · exact stepPause_today s
    · rfl
  case seek pos =>
    simp only [step, stepSeek]
    repeat' split
    all_goals simp [stepResume_today]
  all_goals
    simp only [step, stepSetup, stepTrackCompleted, stepSkipTrack, stepSkipPlaylist,
      stepCleanup] <;>
    repeat' split
  all_goals simp [engineRun_today]

theorem stepResume_good (fuel : Nat) (s : EngineState) (h : GoodProc s) :
    GoodProc (stepResume fuel s) := by
  simp only [stepResume]
  repeat' split
  all_goals try exact h
  all_goals refine engineRun_good _ _ _ ⟨?_, ?_⟩
  · simpa using stopCurrentProcess_traceClean _ h.1
  · simp

theorem stepPause_good (s : EngineState) (h : GoodProc s) : GoodProc (stepPause s) := by
  simp only [stepPause]
  split
  · exact h
  · exact ⟨termNative_traceClean _ h.1, Nat.le_trans (termNative_livePids_le _) h.2⟩

theorem step_good (fuel : Nat) (e : Event) (s : EngineState) (h : GoodProc s) :
    GoodProc (step fuel s e) := by
  cases e
  case resume => exact stepResume_good fuel s h
  case pause => exact stepPause_good s h
  case togglePause =>
    simp only [step, stepToggle]
    repeat' split
    · exact stepResume_good fuel s h
    · exact stepPause_good s h
    · exact h
  case seek pos =>
    have hterm : ∀ X : EngineState, X.trace = s.trace → X.livePids.length ≤ 1 →
        GoodProc X := by
      intro X h1 h2
      exact ⟨h1 ▸ h.1, h2⟩
    simp only [step, stepSeek]
    repeat' split
    all_goals try exact h
    all_goals try refine stepResume_good fuel _ ⟨?_, ?_⟩
    all_goals try simpa using termNative_traceClean s h.1
    all_goals try simpa using Nat.le_trans (termNative_livePids_le s) h.2
    all_goals refine ⟨?_, ?_⟩
    · simpa using termNative_traceClean s h.1
    · simpa using Nat.le_trans (termNative_livePids_le s) h.2
  case setup =>
    have hks := nativeStop_traceClean (killAllAfplay s) (killAllAfplay_traceClean s h.1)
    simp only [step, stepSetup]
    repeat' split
    all_goals try refine engineRun_good _ _ _ ?_
    all_goals refine ⟨?_, ?_⟩ <;> [skip; simp]
    all_goals simpa using hks
  case trackCompleted =>
    simp only [step, stepTrackCompleted]
    repeat' split
    all_goals try refine engineRun_good _ _ _ ?_
    all_goals refine ⟨?_, ?_⟩
    all_goals try simp only [saveTrackPosition_trace, saveTrackPosition_livePids]
    all_goals first
      | exact h.1
      | exact h.2
      | (simp only []; exact h.1)
      | (simp; first
          | exact h.1
          | exact h.2
          | exact Nat.le_trans (List.length_filter_le _ _) h.2)
      | exact Nat.le_trans (List.length_filter_le _ _) h.2
  case skipTrack =>
    simp only [step, stepSkipTrack]
    repeat' split
    all_goals try exact h
    all_goals try refine engineRun_good _ _ _ ?_
    all_goals refine ⟨?_, ?_⟩ <;> [skip; simp]
    all_goals simpa using nativeStop_traceClean s h.1
  case skipPlaylist =>
    simp only [step, stepSkipPlaylist]
    repeat' split
    · exact h
    · refine engineRun_good _ _ _ ⟨?_, ?_⟩
      · exact nativeStop_traceClean s h.1
      · simp
  case stopAudio =>
    simp only [step]
    exact ⟨nativeStop_traceClean s h.1, by simp⟩
  case cleanupQuit =>
    simp only [step, stepCleanup]
    split
    · refine ⟨?_, ?_⟩
      · exact nativeStop_traceClean _ (by simpa using h.1)
      · simp
    · exact ⟨nativeStop_traceClean s h.1, by simp⟩

theorem engineRun_markerBase (n : Nat) (c : Call) (X : EngineState) (P : Nat) (base : PyDate)
    (ht : X.today = base)
    (hx : X.store.audio_playlist_completed_date P = isoDateStr base) :
    (engineRun n c X).store.audio_playlist_completed_date P = isoDateStr base := by
  subst ht
  exact engineRun_marker n c X P hx

theorem stepResume_marker (fuel P : Nat) (s : EngineState)
    (h : s.store.audio_playlist_completed_date P = isoDateStr s.today) :
    (stepResume fuel s).store.audio_playlist_completed_date P = isoDateStr s.today := by
  simp only [stepResume]
  repeat' split
  all_goals try exact h
  all_goals exact engineRun_markerBase _ _ _ _ _ (by simp) (by simpa using h)

theorem stepPause_marker (P : Nat) (s : EngineState)
    (h : s.store.audio_playlist_completed_date P = isoDateStr s.today) :
    (stepPause s).store.audio_playlist_completed_date P = isoDateStr s.today := by
  simp only [stepPause]
  split
  · exact h
  · simpa using h

theorem step_marker (fuel : Nat) (e : Event) (P : Nat) (s : EngineState)
    (h : s.store.audio_playlist_completed_date P = isoDateStr s.today) :
    (step fuel s e).store.audio_playlist_completed_date P = isoDateStr s.today := by
  cases e
  case resume => exact stepResume_marker fuel P s h
  case pause => exact stepPause_marker P s h
  case togglePause =>
    simp only [step, stepToggle]
    repeat' split
    · exact stepResume_marker fuel P s h
    · exact stepPause_marker P s h
    · exact h
  case seek pos =>
    simp only [step, stepSeek]
    repeat' split
    all_goals try exact h
    all_goals try simpa using h
    all_goals refine Eq.trans (stepResume_marker fuel P _ ?_) ?_
    all_goals simpa using h
  case stopAudio =>
    simp only [step]
    simpa using h
  case cleanupQuit =>
    simp only [step, stepCleanup]
    split
    all_goals simpa using h
  all_goals
    simp only [step, stepSetup, stepTrackCompleted, stepSkipTrack, stepSkipPlaylist] <;>
    repeat' split
  all_goals try exact engineRun_markerBase _ _ _ _ _ (by simp) (by simpa using h)
  all_goals simpa using h

/-! ## Claims about the pure calculators -/

/-- Once a looping entry occurs, everything after it loops too: non-looping
entries precede the looping entry. -/
def nonLoopFirst : List (Nat × Bool) → Bool
  | [] => true
  | x :: xs => (if x.2 then xs.all (fun y => y.2) else true) && nonLoopFirst xs

/-- Claim C3: `get_playlists_for_day` returns `[]` for day 0; `[(1, true)]`
for positive even days; `[(2, false), (1, true)]` for odd days `≡ 1 (mod 4)`
up to 21; `[(3, false), (1, true)]` for odd days `≡ 3 (mod 4)` up to 19;
`[(1, true)]` for every other odd day; and for all days in `[0, 31]` the ids
lie in `{1, 2, 3}` with non-looping entries before the looping one. -/
theorem claim_C3 (day : Int) :
    getPlaylistsForDay 0 = [] ∧
    (0 < day → day % 2 = 0 → getPlaylistsForDay day = [(1, true)]) ∧
    (day % 2 = 1 → day % 4 = 1 → day ≤ 21 →
      getPlaylistsForDay day = [(2, false), (1, true)]) ∧
    (day % 2 = 1 → day % 4 = 3 → day ≤ 19 →
      getPlaylistsForDay day = [(3, false), (1, true)]) ∧
    (day % 2 = 1 → ¬(day % 4 = 1 ∧ day ≤ 21) → ¬(day % 4 = 3 ∧ day ≤ 19) →
      getPlaylistsForDay day = [(1, true)]) ∧
    (∀ n : Nat, n ≤ 31 →
      (∀ pb ∈ getPlaylistsForDay (n : Int), pb.1 = 1 ∨ pb.1 = 2 ∨ pb.1 = 3) ∧
      nonLoopFirst (getPlaylistsForDay (n : Int)) = true) := by
  refine ⟨rfl, ?_, ?_, ?_, ?_, ?_⟩
  · intro hpos heven
    unfold getPlaylistsForDay
    split_ifs with h0 h2 h41 h43 <;> first | rfl | omega
  · intro hodd h41 h21
    unfold getPlaylistsForDay
    split_ifs with h0 h2 ha hb <;> first | rfl | omega
  · intro hodd h43 h19
    unfold getPlaylistsForDay
    split_ifs with h0 h2 ha hb <;> first | rfl | omega
  · intro hodd hn41 hn43
    unfold getPlaylistsForDay
    split_ifs with h0 h2 ha hb <;> first | rfl | omega | (exfalso; exact hn41 ha) | (exfalso; exact hn43 hb)
  · decide

theorem orDefault_pos (v d : Nat) (hd : 0 < d) : 0 < orDefault v d := by
  unfold orDefault
  split <;> omega

/-- Claim C2: with a valid ISO start date, `get_cycle_info` returns the
before-start record (`is_break`, `cycle_day = 0`, `study_day = 0`) for
negative `days_elapsed`, and otherwise the quotient/remainder labelling
`cycle_number = days_elapsed / cycle_length + 1`,
`cycle_day = days_elapsed % cycle_length + 1` in `1..cycle_length`,
`is_break ↔ cycle_day > S`, and `study_day = cycle_day` unless on break. -/
theorem claim_C2 (cfg : Config) (startD forDate : PyDate)
    (hparse : parseStartDate cfg.audio_cycle_start_date = some startD) :
    let S : Int := (orDefault cfg.audio_cycle_study_days 21 : Nat)
    let B : Int := (orDefault cfg.audio_cycle_break_days 5 : Nat)
    let L : Int := S + B
    let e : Int := (toOrdinal forDate : Int) - (toOrdinal startD : Int)
    let ci := getCycleInfo cfg forDate
    (e < 0 → ci = { cycle_day := 0, is_break := true, study_day := 0, cycle_number := 0,
                    before_start := true }) ∧
    (0 ≤ e →
      ci.cycle_number = e / L + 1 ∧
      ci.cycle_day = e % L + 1 ∧
      1 ≤ ci.cycle_day ∧ ci.cycle_day ≤ L ∧
      (ci.is_break = true ↔ S < ci.cycle_day) ∧
      ci.study_day = (if ci.is_break then 0 else ci.cycle_day)) := by
  intro S B L e ci
  have hne : cfg.audio_cycle_start_date ≠ "" := by
    intro h0
    rw [h0] at hparse
    simp [parseStartDate] at hparse
  have hS : 0 < S := by
    have := orDefault_pos cfg.audio_cycle_study_days 21 (by omega)
    simp only [S]
    omega
  have hB : (0 : Int) ≤ B := by positivity
  have hL : 0 < L := by omega
  have hci : ci = getCycleInfo cfg forDate := rfl
  unfold getCycleInfo at hci
  rw [if_neg hne, hparse] at hci
  simp only [] at hci
  constructor
  · intro hneg
    rw [hci, if_pos hneg]
  · intro hnonneg
    rw [hci, if_neg (by omega : ¬ ((toOrdinal forDate : Int) - (toOrdinal startD : Int) < 0))]
    have hfd : ((toOrdinal forDate : Int) - (toOrdinal startD : Int)).fdiv L = e / L :=
      Int.fdiv_eq_ediv _ (by omega)
    have hfm : ((toOrdinal forDate : Int) - (toOrdinal startD : Int)).fmod L = e % L :=
      Int.fmod_eq_emod _ (by omega)
    refine ⟨by simp [hfd], by simp [hfm], ?_, ?_, ?_, ?_⟩
    · simp only [hfm]
      have := Int.emod_nonneg e (by omega : L ≠ 0)
      omega
    · simp only [hfm]
      have := Int.emod_lt_of_pos e hL
      omega
    · simp only [hfm]
      constructor
      · intro hb
        simpa using of_decide_eq_true hb
      · intro hlt
        simpa using decide_eq_true (by simpa using hlt)
    · simp only [hfm, hfd]

theorem implicitCycleInfo_jan1 (S L : Int) (hS : 0 < S) (y : Nat) :
    implicitCycleInfo S L ⟨y, 1, 1⟩ =
      { cycle_day := 1, is_break := false, study_day := 1, cycle_number := 1,
        no_cycle_configured := true } := by
  unfold implicitCycleInfo
  have h0 : (toOrdinal ⟨y, 1, 1⟩ : Int) - (toOrdinal ⟨y, 1, 1⟩ : Int) = 0 := sub_self _
  simp only [h0, Int.zero_fdiv, Int.zero_fmod, zero_add]
  have hnb : ¬ (S < 0 + 1) := by omega
  simp [hnb]
  omega

/-- Claim C8: an empty or malformed start-date string makes `get_cycle_info`
return exactly the unset-start result (implicit start at January 1 of the
query year, embedded as a total function: nothing is raised), and on
January 1 of any year that fallback yields `days_elapsed = 0`,
`cycle_number = 1`, `day_in_cycle = 1`, `is_break = false`, `study_day = 1`. -/
theorem claim_C8 (cfg : Config) (forDate : PyDate) (y : Nat)
    (h : cfg.audio_cycle_start_date = "" ∨ parseStartDate cfg.audio_cycle_start_date = none) :
    getCycleInfo cfg forDate = getCycleInfo { cfg with audio_cycle_start_date := "" } forDate ∧
    (getCycleInfo cfg ⟨y, 1, 1⟩).cycle_number = 1 ∧
    (getCycleInfo cfg ⟨y, 1, 1⟩).cycle_day = 1 ∧
    (getCycleInfo cfg ⟨y, 1, 1⟩).is_break = false ∧
    (getCycleInfo cfg ⟨y, 1, 1⟩).study_day = 1 := by
  have himp : ∀ d : PyDate, getCycleInfo cfg d =
      implicitCycleInfo (orDefault cfg.audio_cycle_study_days 21 : Nat)
        ((orDefault cfg.audio_cycle_study_days 21 : Nat) +
          (orDefault cfg.audio_cycle_break_days 5 : Nat)) d := by
    intro d
    unfold getCycleInfo
    rcases h with h0 | hp
    · rw [if_pos h0]
    · by_cases h0 : cfg.audio_cycle_start_date = ""
      · rw [if_pos h0]
      · rw [if_neg h0, hp]
  have himp2 : getCycleInfo { cfg with audio_cycle_start_date := "" } forDate =
      implicitCycleInfo (orDefault cfg.audio_cycle_study_days 21 : Nat)
        ((orDefault cfg.audio_cycle_study_days 21 : Nat) +
          (orDefault cfg.audio_cycle_break_days 5 : Nat)) forDate := by
    unfold getCycleInfo
    rw [if_pos rfl]
  refine ⟨(himp forDate).trans himp2.symm, ?_⟩
  have hS : 0 < orDefault cfg.audio_cycle_study_days 21 :=
    orDefault_pos _ _ (by omega)
  rw [himp ⟨y, 1, 1⟩,
    implicitCycleInfo_jan1 _ _ (by exact_mod_cast hS) y]
  exact ⟨rfl, rfl, rfl, rfl⟩

def c2cfg : Config := { audio_cycle_start_date := "2024-03-10" }

theorem claim_C2_witness :
    parseStartDate c2cfg.audio_cycle_start_date = some ⟨2024, 3, 10⟩ ∧
    (getCycleInfo c2cfg ⟨2024, 4, 1⟩).cycle_day = 23 ∧
    (getCycleInfo c2cfg ⟨2024, 4, 1⟩).is_break = true := by
  have hp : parseStartDate c2cfg.audio_cycle_start_date = some ⟨2024, 3, 10⟩ := by decide
  have h2 := (claim_C2 c2cfg ⟨2024, 3, 10⟩ ⟨2024, 4, 1⟩ hp).2 (by decide)
  have hcd : (getCycleInfo c2cfg ⟨2024, 4, 1⟩).cycle_day = 23 := by
    rw [h2.2.1]
    decide
  refine ⟨hp, hcd, ?_⟩
  exact (h2.2.2.2.2.1).mpr (by rw [hcd]; decide)

theorem claim_C3_witness :
    (5 : Int) % 2 = 1 ∧ (5 : Int) % 4 = 1 ∧ (5 : Int) ≤ 21 ∧
    getPlaylistsForDay 5 = [(2, false), (1, true)] :=
  ⟨by decide, by decide, by decide, (claim_C3 5).2.2.1 (by decide) (by decide) (by decide)⟩

def c8cfg : Config := { audio_cycle_start_date := "not-a-date" }

theorem claim_C8_witness :
    parseStartDate c8cfg.audio_cycle_start_date = none ∧
    (getCycleInfo c8cfg ⟨2026, 1, 1⟩).study_day = 1 ∧
    (getCycleInfo c8cfg ⟨2026, 1, 1⟩).is_break = false :=
  ⟨by decide, (claim_C8 c8cfg ⟨2026, 5, 5⟩ 2026 (Or.inr (by decide))).2.2.2.2,
   (claim_C8 c8cfg ⟨2026, 5, 5⟩ 2026 (Or.inr (by decide))).2.2.2.1⟩

/-! ## Order properties of the natural-sort comparison -/

theorem charToNat_inj {a b : Char} (h : a.toNat = b.toNat) : a = b := by
  apply Char.eq_of_val_eq
  apply UInt32.eq_of_val_eq
  exact Fin.eq_of_val_eq h

theorem natCmp_swap (a b : Nat) : compare a b = (compare b a).swap := by
  rcases Nat.lt_trichotomy a b with h | h | h
  · rw [Nat.compare_eq_lt.mpr h, Nat.compare_eq_gt.mpr h]
    rfl
  · subst h
    rw [Nat.compare_eq_eq.mpr rfl]
    rfl
  · rw [Nat.compare_eq_gt.mpr h, Nat.compare_eq_lt.mpr h]
    rfl

theorem charCmp_eq {a b : Char} (h : charCmp a b = Ordering.eq) : a = b := by
  exact charToNat_inj (Nat.compare_eq_eq.mp h)

theorem charCmp_lt_trans {a b c : Char} (h₁ : charCmp a b = Ordering.lt)
    (h₂ : charCmp b c = Ordering.lt) : charCmp a c = Ordering.lt := by
  exact Nat.compare_eq_lt.mpr (Nat.lt_trans (Nat.compare_eq_lt.mp h₁) (Nat.compare_eq_lt.mp h₂))

theorem charCmp_swap (a b : Char) : charCmp a b = (charCmp b a).swap :=
  natCmp_swap a.toNat b.toNat

theorem charListCmp_eq : ∀ {a b : List Char}, charListCmp a b = Ordering.eq → a = b := by
  intro a
  induction a with
  | nil =>
    intro b h
    cases b with
    | nil => rfl
    | cons y ys => simp [charListCmp] at h
  | cons x xs ih =>
    intro b h
    cases b with
    | nil => simp [charListCmp] at h
    | cons y ys =>
      simp only [charListCmp] at h
      cases hxy : charCmp x y <;> rw [hxy] at h
      · cases h
      · rw [charCmp_eq hxy, ih h]
      · cases h

theorem charListCmp_lt_trans : ∀ {a b c : List Char}, charListCmp a b = Ordering.lt →
    charListCmp b c = Ordering.lt → charListCmp a c = Ordering.lt := by
  intro a
  induction a with
  | nil =>
    intro b c hab hbc
    cases c with
    | nil =>
      cases b with
      | nil => cases hab
      | cons y ys => cases hbc
    | cons z zs => rfl
  | cons x xs ih =>
    intro b c hab hbc
    cases b with
    | nil => cases hab
    | cons y ys =>
      cases c with
      | nil => cases hbc
      | cons z zs =>
        simp only [charListCmp] at hab hbc ⊢
        cases hxy : charCmp x y <;> rw [hxy] at hab
        · cases hbc2 : charCmp y z <;> rw [hbc2] at hbc
          · rw [charCmp_lt_trans hxy hbc2]
          · rw [← charCmp_eq hbc2, hxy]
          · cases hbc
        · cases hbc2 : charCmp y z <;> rw [hbc2] at hbc
          · rw [charCmp_eq hxy, hbc2]
          · rw [charCmp_eq hxy, hbc2]
            exact ih hab hbc
          · cases hbc
        · cases hab

theorem charListCmp_swap : ∀ (a b : List Char), charListCmp a b = (charListCmp b a).swap := by
  intro a
  induction a with
  | nil =>
    intro b
    cases b <;> rfl
  | cons x xs ih =>
    intro b
    cases b with
    | nil => rfl
    | cons y ys =>
      simp only [charListCmp]
      rw [charCmp_swap x y]
      cases charCmp y x
      · rfl
      · exact ih ys
      · rfl

theorem keyPartCmp_eq : ∀ {a b : KeyPart}, keyPartCmp a b = Ordering.eq → a = b := by
  intro a b h
  cases a <;> cases b <;> simp only [keyPartCmp] at h
  · rw [charListCmp_eq h]
  · cases h
  · cases h
  · rw [Nat.compare_eq_eq.mp h]

theorem keyPartCmp_lt_trans : ∀ {a b c : KeyPart}, keyPartCmp a b = Ordering.lt →
    keyPartCmp b c = Ordering.lt → keyPartCmp a c = Ordering.lt := by
  intro a b c h₁ h₂
  cases a <;> cases b <;> cases c <;> simp only [keyPartCmp] at h₁ h₂ ⊢ <;>
    first
      | exact charListCmp_lt_trans h₁ h₂
      | exact Nat.compare_eq_lt.mpr
          (Nat.lt_trans (Nat.compare_eq_lt.mp h₁) (Nat.compare_eq_lt.mp h₂))
      | (cases h₁; done)
      | (cases h₂; done)
      | rfl

theorem keyPartCmp_swap (a b : KeyPart) : keyPartCmp a b = (keyPartCmp b a).swap := by
  cases a <;> cases b <;> simp only [keyPartCmp]
  · exact charListCmp_swap _ _
  · rfl
  · rfl
  · exact natCmp_swap _ _

theorem keyCmp_eq : ∀ {a b : List KeyPart}, keyCmp a b = Ordering.eq → a = b := by
  intro a
  induction a with
  | nil =>
    intro b h
    cases b with
    | nil => rfl
    | cons y ys => cases h
  | cons x xs ih =>
    intro b h
    cases b with
    | nil => cases h
    | cons y ys =>
      simp only [keyCmp] at h
      cases hxy : keyPartCmp x y <;> rw [hxy] at h
      · cases h
      · rw [keyPartCmp_eq hxy, ih h]
      · cases h

theorem keyCmp_lt_trans : ∀ {a b c : List KeyPart}, keyCmp a b = Ordering.lt →
    keyCmp b c = Ordering.lt → keyCmp a c = Ordering.lt := by
  intro a
  induction a with
  | nil =>
    intro b c hab hbc
    cases c with
    | nil =>
      cases b with
      | nil => cases hab
      | cons y ys => cases hbc
    | cons z zs => rfl
  | cons x xs ih =>
    intro b c hab hbc
    cases b with
    | nil => cases hab
    | cons y ys =>
      cases c with
      | nil => cases hbc
      | cons z zs =>
        simp only [keyCmp] at hab hbc ⊢
        cases hxy : keyPartCmp x y <;> rw [hxy] at hab
        · cases hbc2 : keyPartCmp y z <;> rw [hbc2] at hbc
          · rw [keyPartCmp_lt_trans hxy hbc2]
          · rw [← keyPartCmp_eq hbc2, hxy]
          · cases hbc
        · cases hbc2 : keyPartCmp y z <;> rw [hbc2] at hbc
          · rw [keyPartCmp_eq hxy, hbc2]
          · rw [keyPartCmp_eq hxy, hbc2]
            exact ih hab hbc
          · cases hbc
        · cases hab

theorem keyCmp_swap : ∀ (a b : List KeyPart), keyCmp a b = (keyCmp b a).swap := by
  intro a
  induction a with
  | nil =>
    intro b
    cases b <;> rfl
  | cons x xs ih =>
    intro b
    cases b with
    | nil => rfl
    | cons y ys =>
      simp only [keyCmp]
      rw [keyPartCmp_swap x y]
      cases keyPartCmp y x
      · rfl
      · exact ih ys
      · rfl

theorem keyLe_iff (a b : List KeyPart) : keyLe a b = true ↔ keyCmp a b ≠ Ordering.gt := by
  simp [keyLe]

theorem keyLe_trans {a b c : List KeyPart} (h₁ : keyLe a b = true) (h₂ : keyLe b c = true) :
    keyLe a c = true := by
  rw [keyLe_iff] at h₁ h₂ ⊢
  intro hac
  cases hab : keyCmp a b
  · cases hbc : keyCmp b c
    · exact absurd (keyCmp_lt_trans hab hbc) (by rw [hac]; intro h; cases h)
    · rw [keyCmp_eq hbc] at hab
      rw [hab] at hac
      cases hac
    · exact h₂ hbc
  · rw [keyCmp_eq hab] at hac
    exact h₂ hac
  · exact h₁ hab

theorem keyLe_total (a b : List KeyPart) : (keyLe a b || keyLe b a) = true := by
  rw [Bool.or_eq_true, keyLe_iff, keyLe_iff]
  by_cases h : keyCmp a b = Ordering.gt
  · right
    have hba : keyCmp b a = Ordering.lt := by
      rw [keyCmp_swap b a, h]
      rfl
    rw [hba]
    intro hh
    cases hh
  · left
    exact h

theorem trackLe_trans (a b c : String) (h₁ : trackLe a b = true) (h₂ : trackLe b c = true) :
    trackLe a c = true :=
  keyLe_trans h₁ h₂

theorem trackLe_total (a b : String) : (trackLe a b || trackLe b a) = true :=
  keyLe_total _ _

/-- Concrete directory for the spec of the natural-sort example: a folder
holding `track10.mp3`, `track2.mp3`, `track1.mp3` (listed in that order). -/
def naturalSortExampleFS : FileSystem where
  isDir := fun p => p == "/music"
  isFile := fun _ => false
  listDir := fun p =>
    if p == "/music" then some ["track10.mp3", "track2.mp3", "track1.mp3"] else none
  pathExists := fun _ => true

unseal List.merge List.mergeSort in
/-- Claim C7: `_expand_source` on a directory returns exactly the entries
with supported extensions (joined to the folder), as a list sorted by the
natural key of the basename — in particular `track10.mp3, track2.mp3,
track1.mp3` come back ordered `track1, track2, track10`; a single supported
file gives the one-element list; an empty path, a missing file, an
unsupported extension, or an `os.listdir` error all give `[]` (the embedding
is a total function: nothing is raised). -/
theorem claim_C7 (fs : FileSystem) (path : String) (entries : List String) :
    (pyStrip path ≠ "" → fs.isDir (pyStrip path) = true →
      fs.listDir (pyStrip path) = some entries →
      (expandSource fs path).Perm
        ((entries.filter (fun f => extSupported f)).map (pathJoin (pyStrip path))) ∧
      List.Pairwise (fun a b => trackLe a b = true) (expandSource fs path)) ∧
    (pyStrip path ≠ "" → fs.isDir (pyStrip path) = false → fs.isFile (pyStrip path) = true →
      extSupported (pyStrip path) = true → expandSource fs path = [pyStrip path]) ∧
    (pyStrip path = "" → expandSource fs path = []) ∧
    (pyStrip path ≠ "" → fs.isDir (pyStrip path) = true → fs.listDir (pyStrip path) = none →
      expandSource fs path = []) ∧
    (pyStrip path ≠ "" → fs.isDir (pyStrip path) = false →
      (fs.isFile (pyStrip path) = false ∨ extSupported (pyStrip path) = false) →
      expandSource fs path = []) ∧
    expandSource naturalSortExampleFS "/music" =
      ["/music/track1.mp3", "/music/track2.mp3", "/music/track10.mp3"] := by
  refine ⟨?_, ?_, ?_, ?_, ?_, ?_⟩
  · intro hne hdir hls
    unfold expandSource folderAudioFiles
    rw [if_neg hne, if_pos hdir, hls]
    constructor
    · exact List.mergeSort_perm _ _
    · exact List.sorted_mergeSort trackLe_trans trackLe_total _
  · intro hne hdir hfile hext
    unfold expandSource
    rw [if_neg hne, if_neg (by simp [hdir] : ¬ fs.isDir (pyStrip path) = true),
      if_pos (by simp [hfile, hext])]
  · intro he
    unfold expandSource
    rw [if_pos he]
  · intro hne hdir hls
    unfold expandSource folderAudioFiles
    rw [if_neg hne, if_pos hdir, hls]
  · intro hne hdir hor
    unfold expandSource
    rw [if_neg hne, if_neg (by simp [hdir] : ¬ fs.isDir (pyStrip path) = true), if_neg]
    rcases hor with h | h <;> simp [h]
  · decide

theorem claim_C7_witness :
    pyStrip "/music" ≠ "" ∧
    naturalSortExampleFS.isDir (pyStrip "/music") = true ∧
    naturalSortExampleFS.listDir (pyStrip "/music") =
      some ["track10.mp3", "track2.mp3", "track1.mp3"] ∧
    ((expandSource naturalSortExampleFS "/music").Perm
      ((["track10.mp3", "track2.mp3", "track1.mp3"].filter (fun f => extSupported f)).map
        (pathJoin (pyStrip "/music"))) ∧
     List.Pairwise (fun a b => trackLe a b = true)
       (expandSource naturalSortExampleFS "/music")) :=
  ⟨by decide, by decide, by decide,
   (claim_C7 naturalSortExampleFS "/music" ["track10.mp3", "track2.mp3", "track1.mp3"]).1
     (by decide) (by decide) (by decide)⟩


/-! ## Claims about the playback engine -/

theorem runEvents_good (fuel : Nat) (evs : List Event) :
    ∀ s, GoodProc s → GoodProc (runEvents fuel s evs) := by
  induction evs with
  | nil => intro s h; exact h
  | cons e es ih =>
    intro s h
    exact ih _ (step_good fuel e s h)

/-- Claim C1: from engine start, under every sequence of external
events (setup, natural completion, skips, pause/resume/toggle, seek, stop,
quit cleanup), at most one external audio process is alive, and every track
spawn happened at an instant when the live set was empty (the preceding
terminate-and-wait plus stray sweep had succeeded). -/
theorem claim_C1 (fuel : Nat) (fs : FileSystem) (today : PyDate) (cfg₀ : Config)
    (evs : List Event) :
    (runEvents fuel (initState fs today cfg₀) evs).livePids.length ≤ 1 ∧
    traceClean (runEvents fuel (initState fs today cfg₀) evs).trace := by
  have h0 : GoodProc (initState fs today cfg₀) := by
    constructor
    · intro e he pid pl idx prior hh
      simp [initState] at he
    · simp [initState]
  have h := runEvents_good fuel evs _ h0
  exact ⟨h.2, h.1⟩

theorem runEvents_marker (fuel : Nat) (evs : List Event) (P : Nat) :
    ∀ s, s.store.audio_playlist_completed_date P = isoDateStr s.today →
      (runEvents fuel s evs).store.audio_playlist_completed_date P =
        isoDateStr (runEvents fuel s evs).today := by
  induction evs with
  | nil => intro s h; exact h
  | cons e es ih =>
    intro s h
    refine ih _ ?_
    rw [step_today]
    exact step_marker fuel e P s h

/-- Claim C9: `_mark_playlist_completed_today(P)` writes today's ISO
date as the completed marker and zeroes the stored track and time positions;
afterwards every engine operation at most rewrites the marker with today's
date, so `_is_playlist_completed_today(P)` stays true for the rest of the
calendar day (the model holds the date fixed along a same-day run). -/
theorem claim_C9 (fuel : Nat) (s : EngineState) (P : Nat) (evs : List Event) :
    (markCompletedToday P s).store.audio_playlist_completed_date P = isoDateStr s.today ∧
    (markCompletedToday P s).store.audio_track_position P = 0 ∧
    (markCompletedToday P s).store.audio_time_position P = 0 ∧
    isPlaylistCompletedToday (runEvents fuel (markCompletedToday P s) evs).store
      (runEvents fuel (markCompletedToday P s) evs).today P = true := by
  refine ⟨by simp [markCompletedToday, setF], by simp [markCompletedToday, setF],
    by simp [markCompletedToday, setF], ?_⟩
  have hm : (markCompletedToday P s).store.audio_playlist_completed_date P =
      isoDateStr (markCompletedToday P s).today := by
    simp [markCompletedToday, setF]
  have h := runEvents_marker fuel evs P _ hm
  rw [isPlaylistCompletedToday, h]
  simp

/-- Claim C6: on a break day (including before-start), `setup` leaves
the playback queue untouched, starts nothing and spawns nothing — and since
the break check reads `get_cycle_info` before `get_effective_day` is ever
consulted, this holds whatever the manual override flag and day are. -/
theorem claim_C6 (fuel : Nat) (s : EngineState)
    (hb : (getCycleInfo s.store s.today).is_break = true) :
    (step fuel s Event.setup).playbackQueue = s.playbackQueue ∧
    (step fuel s Event.setup).queueIndex = s.queueIndex ∧
    countSpawns (step fuel s Event.setup).trace = countSpawns s.trace ∧
    (step fuel s Event.setup).nativePlaying = false := by
  simp only [step, stepSetup]
  rw [if_pos (by simpa using hb)]
  refine ⟨by simp, by simp, ?_, by simp⟩
  simp only [countSpawns]
  have h1 : spawnsOf (nativeStop (killAllAfplay s)).trace = spawnsOf s.trace := by
    rw [nativeStop_spawnsOf, killAllAfplay_spawnsOf]
  simpa using congrArg List.length h1

def trivFS : FileSystem where
  isDir := fun _ => false
  isFile := fun _ => false
  listDir := fun _ => none
  pathExists := fun _ => false

def c6state : EngineState :=
  initState trivFS ⟨2024, 1, 22⟩
    { audio_cycle_start_date := "2024-01-01",
      audio_playlist_override_enabled := true,
      audio_playlist_override_day := 3 }

theorem claim_C6_witness :
    (getCycleInfo c6state.store c6state.today).is_break = true ∧
    c6state.store.audio_playlist_override_enabled = true ∧
    ((step 9 c6state Event.setup).playbackQueue = c6state.playbackQueue ∧
     (step 9 c6state Event.setup).queueIndex = c6state.queueIndex ∧
     countSpawns (step 9 c6state Event.setup).trace = countSpawns c6state.trace ∧
     (step 9 c6state Event.setup).nativePlaying = false) :=
  ⟨by decide, by decide, claim_C6 9 c6state (by decide)⟩

theorem policy_mem_ids (d : Int) (pb : Nat × Bool) (h : pb ∈ getPlaylistsForDay d) :
    pb.1 = 1 ∨ pb.1 = 2 ∨ pb.1 = 3 := by
  unfold getPlaylistsForDay at h
  split_ifs at h <;> simp at h <;>
    first
      | (rw [h]; simp)
      | (rcases h with h | h <;> rw [h] <;> simp)

theorem policy_ids_nodup (d : Int) : ((getPlaylistsForDay d).map Prod.fst).Nodup := by
  unfold getPlaylistsForDay
  split_ifs <;> simp

/-- Claim C10: on a study day, `setup` builds the queue as exactly the
day's policy list filtered to enabled playlists whose path expands to a
nonempty track list — a duplicate-free subsequence of the policy order — and
if that filter leaves nothing, `setup` returns without starting a playlist or
spawning a process. -/
theorem claim_C10 (fuel : Nat) (s : EngineState)
    (hb : (getCycleInfo s.store s.today).is_break = false) :
    (step fuel s Event.setup).playbackQueue =
      (getPlaylistsForDay (getEffectiveDay s.store s.today)).filter
        (fun pb => s.store.audio_playlist_enabled pb.1 &&
          !(expandSource s.fs (s.store.audio_playlist_path pb.1)).isEmpty) ∧
    ((getPlaylistsForDay (getEffectiveDay s.store s.today)).filter
        (fun pb => s.store.audio_playlist_enabled pb.1 &&
          !(expandSource s.fs (s.store.audio_playlist_path pb.1)).isEmpty)).Sublist
      (getPlaylistsForDay (getEffectiveDay s.store s.today)) ∧
    (((getPlaylistsForDay (getEffectiveDay s.store s.today)).filter
        (fun pb => s.store.audio_playlist_enabled pb.1 &&
          !(expandSource s.fs (s.store.audio_playlist_path pb.1)).isEmpty)).map
      Prod.fst).Nodup ∧
    ((getPlaylistsForDay (getEffectiveDay s.store s.today)).filter
        (fun pb => s.store.audio_playlist_enabled pb.1 &&
          !(expandSource s.fs (s.store.audio_playlist_path pb.1)).isEmpty) = [] →
      countSpawns (step fuel s Event.setup).trace = countSpawns s.trace ∧
      (step fuel s Event.setup).queueIndex = s.queueIndex) := by
  have hfhe : ∀ t : List (Nat × Bool), t = getPlaylistsForDay (getEffectiveDay s.store s.today) →
      t.filter (fun pb => s.store.audio_playlist_enabled pb.1 &&
        !((if pb.1 = 1 ∨ pb.1 = 2 ∨ pb.1 = 3 then
            expandSource s.fs (s.store.audio_playlist_path pb.1) else [])).isEmpty) =
      t.filter (fun pb => s.store.audio_playlist_enabled pb.1 &&
        !(expandSource s.fs (s.store.audio_playlist_path pb.1)).isEmpty) := by
    intro t ht
    refine List.filter_congr ?_
    intro pb hmem
    have hid := policy_mem_ids _ pb (ht ▸ hmem)
    rw [if_pos hid]
  refine ⟨?_, List.filter_sublist _, ?_, ?_⟩
  · simp only [step, stepSetup]
    rw [if_neg (by simpa using hb)]
    split
    · simp only []
      rw [← hfhe _ rfl]
      simp
    · rw [engineRun_queue]
      simp only []
      rw [← hfhe _ rfl]
      simp
  · exact ((List.filter_sublist _).map Prod.fst).nodup (policy_ids_nodup _)
  · intro hq
    simp only [step, stepSetup]
    rw [if_neg (by simpa using hb)]
    split
    · constructor
      · simp only [countSpawns]
        have h1 : spawnsOf (nativeStop (killAllAfplay s)).trace = spawnsOf s.trace := by
          rw [nativeStop_spawnsOf, killAllAfplay_spawnsOf]
        simpa using congrArg List.length h1
      · simp
    · rename_i hne
      exfalso
      apply hne
      simp only [nativeStop_store, nativeStop_today, nativeStop_fs,
        killAllAfplay_store, killAllAfplay_today, killAllAfplay_fs]
      rw [List.isEmpty_iff, hfhe _ rfl]
      exact hq

theorem spawnsOf_singleton_spawn (pid pl idx : Nat) (prior : List Nat) :
    spawnsOf [Ev.spawn pid pl idx prior] = [(pl, idx)] := rfl

@[simp] theorem getTrackPosition_def (cfg : Config) (pid : Nat) :
    getTrackPosition cfg pid = cfg.audio_track_position pid := rfl

theorem play_spawn (fuel : Nat) (X : EngineState)
    (hid : X.currentPlaylistId ≠ 0) (hk : X.currentPlaylistId ∈ X.playlistKeys)
    (hlt : X.currentTrackIndex < (X.playlists X.currentPlaylistId).length)
    (hex : X.fs.pathExists
      ((X.playlists X.currentPlaylistId).getD X.currentTrackIndex "") = true) :
    spawnsOf (engineRun (fuel + 1) Call.play X).trace =
      spawnsOf X.trace ++ [(X.currentPlaylistId, X.currentTrackIndex)] ∧
    (engineRun (fuel + 1) Call.play X).currentPlaylistId = X.currentPlaylistId ∧
    (engineRun (fuel + 1) Call.play X).currentTrackIndex = X.currentTrackIndex ∧
    (engineRun (fuel + 1) Call.play X).nativePlaying = true := by
  have hne2 : ¬ (((stopCurrentProcess X).playlists
      (stopCurrentProcess X).currentPlaylistId).isEmpty = true ∨
      ((stopCurrentProcess X).playlists (stopCurrentProcess X).currentPlaylistId).length ≤
        (stopCurrentProcess X).currentTrackIndex) := by
    simp only [stopCurrentProcess_playlists, stopCurrentProcess_currentPlaylistId,
      stopCurrentProcess_currentTrackIndex, List.isEmpty_iff, not_or, not_le]
    refine ⟨?_, hlt⟩
    intro h
    rw [h] at hlt
    simp at hlt
  have hex2 : ¬ ((stopCurrentProcess X).fs.pathExists
      (((stopCurrentProcess X).playlists (stopCurrentProcess X).currentPlaylistId).getD
        (stopCurrentProcess X).currentTrackIndex "") = false) := by
    simp only [stopCurrentProcess_fs, stopCurrentProcess_playlists,
      stopCurrentProcess_currentPlaylistId, stopCurrentProcess_currentTrackIndex]
    rw [hex]
    simp
  simp only [engineRun]
  rw [if_neg (by simp [hid, hk]), if_neg hne2, if_neg hex2]
  refine ⟨?_, by simp, by simp, by simp⟩
  simp [stopCurrentProcess_spawnsOf]

/-- The state `_start_playlist` leaves behind when it skips an
already-completed playlist and moves to the next queue entry: process
stopped, config reloaded, queue index advanced. -/
def afterCompletedSkip (s : EngineState) : EngineState :=
  let s₁ := stopCurrentProcess s
  let s₂ := { s₁ with cfgRef := s₁.store }
  { s₂ with queueIndex := s₂.queueIndex + 1 }

/-- The state `_start_playlist` leaves behind when it skips an
already-completed playlist and finds the queue exhausted. -/
def afterCompletedSkipDone (s : EngineState) : EngineState :=
  let s₁ := stopCurrentProcess s
  let s₂ := { s₁ with cfgRef := s₁.store }
  { s₂ with nativePlaying := false, currentPlaylistId := 0 }

theorem afterCompletedSkip_queueIndex (s : EngineState) :
    (afterCompletedSkip s).queueIndex = s.queueIndex + 1 := by
  simp [afterCompletedSkip]

/-- Claim C4: starting a non-looping playlist already completed today
plays none of its tracks and leaves its completed marker as it was; the call
advances the queue index and starts the next entry, or stops with no current
playlist when the queue is exhausted. -/
theorem claim_C4 (fuel : Nat) (s : EngineState) (P : Nat)
    (hne : s.playlists P ≠ [])
    (hcomp : isPlaylistCompletedToday s.store s.today P = true)
    (hq : ∀ pb ∈ s.playbackQueue, pb.1 = P → pb.2 = false) :
    (engineRun (fuel + 1) (Call.start P false) s).store.audio_playlist_completed_date P =
      s.store.audio_playlist_completed_date P ∧
    countSpawnsOf P (engineRun (fuel + 1) (Call.start P false) s).trace =
      countSpawnsOf P s.trace ∧
    (afterCompletedSkip s).queueIndex = s.queueIndex + 1 ∧
    engineRun (fuel + 1) (Call.start P false) s =
      (if s.queueIndex + 1 < s.playbackQueue.length then
        engineRun fuel
          (Call.start (s.playbackQueue.getD (s.queueIndex + 1) (0, false)).1
            (s.playbackQueue.getD (s.queueIndex + 1) (0, false)).2)
          (afterCompletedSkip s)
      else afterCompletedSkipDone s) := by
  have hm : s.store.audio_playlist_completed_date P = isoDateStr s.today := by
    simpa [isPlaylistCompletedToday] using hcomp
  refine ⟨?_, ?_, afterCompletedSkip_queueIndex s, ?_⟩
  · rw [engineRun_marker (fuel + 1) _ _ _ hm, hm]
  · exact engineRun_noSpawn (fuel + 1) (Call.start P false) s P hm (fun h => rfl) hq
  · simp only [engineRun]
    rw [if_neg (by simpa using hne),
      if_pos (⟨trivial, by simpa [isPlaylistCompletedToday] using hm⟩ :
        True ∧ isPlaylistCompletedToday (stopCurrentProcess s).store
          (stopCurrentProcess s).today P = true)]
    simp only [afterCompletedSkip, afterCompletedSkipDone,
      stopCurrentProcess_queue, stopCurrentProcess_queueIndex]

def c4state : EngineState :=
  { initState trivFS ⟨2024, 1, 1⟩
      { audio_playlist_completed_date := fun q => if q = 2 then "2024-01-01" else "" } with
    playlists := fun pid =>
      if pid = 1 then ["/p1/one.mp3"] else if pid = 2 then ["/p2/a.mp3"] else [],
    playlistKeys := [1, 2, 3],
    playbackQueue := [(2, false), (1, true)] }

theorem claim_C4_witness :
    c4state.playlists 2 ≠ [] ∧
    isPlaylistCompletedToday c4state.store c4state.today 2 = true ∧
    countSpawnsOf 2 (engineRun 6 (Call.start 2 false) c4state).trace =
      countSpawnsOf 2 c4state.trace := by
  refine ⟨by decide, by decide, ?_⟩
  exact (claim_C4 5 c4state 2 (by decide) (by decide) (by decide)).2.1

set_option maxHeartbeats 2000000 in
/-- Claim C5: starting a nonempty playlist `P` that is not completed
today resumes at the persisted index whenever it is in range (the spawned
track is exactly `(P, saved)`, assuming the file on disk still exists); a
stale index at or past the end restarts a looping playlist at track 0, while
a non-looping playlist is marked completed for today and the queue advances
past it without any of its tracks being spawned. -/
theorem claim_C5 (fuel : Nat) (s : EngineState) (P : Nat) (loops : Bool)
    (hne : s.playlists P ≠ [])
    (hP0 : P ≠ 0) (hPk : P ∈ s.playlistKeys)
    (hnc : loops = false → isPlaylistCompletedToday s.store s.today P = false)
    (hq : ∀ pb ∈ s.playbackQueue, pb.1 = P → pb.2 = false) :
    (s.store.audio_track_position P < (s.playlists P).length →
      s.fs.pathExists ((s.playlists P).getD (s.store.audio_track_position P) "") = true →
      spawnsOf (engineRun (fuel + 2) (Call.start P loops) s).trace =
        spawnsOf s.trace ++ [(P, s.store.audio_track_position P)] ∧
      (engineRun (fuel + 2) (Call.start P loops) s).currentPlaylistId = P ∧
      (engineRun (fuel + 2) (Call.start P loops) s).currentTrackIndex =
        s.store.audio_track_position P ∧
      (engineRun (fuel + 2) (Call.start P loops) s).nativePlaying = true) ∧
    ((s.playlists P).length ≤ s.store.audio_track_position P → loops = true →
      s.fs.pathExists ((s.playlists P).getD 0 "") = true →
      spawnsOf (engineRun (fuel + 2) (Call.start P loops) s).trace =
        spawnsOf s.trace ++ [(P, 0)] ∧
      (engineRun (fuel + 2) (Call.start P loops) s).currentPlaylistId = P ∧
      (engineRun (fuel + 2) (Call.start P loops) s).currentTrackIndex = 0 ∧
      (engineRun (fuel + 2) (Call.start P loops) s).nativePlaying = true) ∧
    ((s.playlists P).length ≤ s.store.audio_track_position P → loops = false →
      (engineRun (fuel + 2) (Call.start P loops) s).store.audio_playlist_completed_date P =
        isoDateStr s.today ∧
      countSpawnsOf P (engineRun (fuel + 2) (Call.start P loops) s).trace =
        countSpawnsOf P s.trace ∧
      s.queueIndex + 1 ≤ (engineRun (fuel + 2) (Call.start P loops) s).queueIndex) := by
  have hskip : ¬ (loops = false ∧ isPlaylistCompletedToday
      (stopCurrentProcess s).store (stopCurrentProcess s).today P = true) := by
    rintro ⟨hl, hc⟩
    rw [stopCurrentProcess_store, stopCurrentProcess_today] at hc
    rw [hnc hl] at hc
    cases hc
  have advqi : ∀ (n : Nat) (X : EngineState),
      X.queueIndex + 1 ≤ (engineRun (n + 1) Call.advance X).queueIndex := by
    intro n X
    simp only [engineRun]
    split <;> split
    all_goals first
      | (simp; done)
      | (refine Nat.le_trans ?_ (engineRun_queueIndex_le _ _ _);
          first | (simp; done) | omega | exact Nat.le_refl _)
  refine ⟨?_, ?_, ?_⟩
  · intro hlt hex
    simp only [engineRun]
    rw [if_neg (by simpa using hne), if_neg (by simpa using hskip),
      if_neg (by simpa using Nat.not_le.mpr hlt)]
    split
    · rename_i heq
      simp at heq
    · rename_i idx heq
      injection heq with hidx
      subst hidx
      split
      all_goals
        simp only [engineRun]
        rw [if_neg (by simp [hP0, hPk]),
          if_neg (by
            simp only [stopCurrentProcess_playlists, stopCurrentProcess_currentPlaylistId,
              stopCurrentProcess_currentTrackIndex, List.isEmpty_iff, not_or, not_le]
            refine ⟨by simpa using hne, by simpa [getTrackPosition] using hlt⟩),
          if_neg (by
            simp only [stopCurrentProcess_fs, stopCurrentProcess_playlists,
              stopCurrentProcess_currentPlaylistId, stopCurrentProcess_currentTrackIndex]
            simp only [List.getD_eq_getElem?_getD] at hex
            simp [getTrackPosition, hex])]
      all_goals
        refine ⟨?_, by simp, by simp, by simp⟩
        simp [stopCurrentProcess_spawnsOf, spawnsOf_append, spawnsOf_singleton_spawn]
  · intro hge hl hex
    subst hl
    have hlen0 : (s.playlists P).length ≠ 0 := by
      intro h
      exact hne (List.length_eq_zero.mp h)
    simp only [engineRun]
    rw [if_neg (by simpa using hne), if_neg (by simpa using hskip),
      if_pos (by simpa using hge)]
    split
    · rename_i heq
      simp at heq
    · rename_i idx heq
      have hidx : idx = 0 := by simpa using heq.symm
      subst hidx
      split
      all_goals
        simp only [engineRun]
        rw [if_neg (by simp [hP0, hPk]),
          if_neg (by
            simp only [stopCurrentProcess_playlists, stopCurrentProcess_currentPlaylistId,
              stopCurrentProcess_currentTrackIndex, List.isEmpty_iff, not_or, not_le]
            refine ⟨by simpa using hne, by omega⟩),
          if_neg (by
            simp only [stopCurrentProcess_fs, stopCurrentProcess_playlists,
              stopCurrentProcess_currentPlaylistId, stopCurrentProcess_currentTrackIndex]
            simp only [List.getD_eq_getElem?_getD] at hex
            simp [hex])]
      all_goals
        refine ⟨?_, by simp, by simp, by simp⟩
        simp [stopCurrentProcess_spawnsOf, spawnsOf_append, spawnsOf_singleton_spawn]
  · intro hge hl
    subst hl
    simp only [engineRun]
    rw [if_neg (by simpa using hne), if_neg (by simpa using hskip),
      if_pos (by simpa using hge)]
    split
    · split
      · split
        · -- queue exhausted after the skip: engine stops
          refine ⟨?_, ?_, ?_⟩
          · simp [markCompletedToday_completed]
          · simp only [markCompletedToday_trace]
            exact countSpawnsOf_stop s P
          · simp
        · -- a next queue entry is started
          refine ⟨?_, ?_, ?_⟩
          · refine engineRun_markerBase _ _ _ _ _ ?_ ?_
            · simp
            · simp [markCompletedToday_completed]
          · refine Eq.trans (engineRun_noSpawn _ _ _ _ ?_ ?_ ?_) ?_
            · simp [markCompletedToday_completed]
            · rename_i hexh
              simp only [callOK]
              intro hfst
              have hlt2 : s.queueIndex + 1 < s.playbackQueue.length := by
                simp only [markCompletedToday_queue, markCompletedToday_queueIndex,
                  stopCurrentProcess_queue, stopCurrentProcess_queueIndex, not_le] at hexh
                simpa using hexh
              have hmem := hq _ (getD_mem_queue s.playbackQueue (s.queueIndex + 1) hlt2)
              simp only [markCompletedToday_queue, markCompletedToday_queueIndex,
                stopCurrentProcess_queue, stopCurrentProcess_queueIndex] at hfst
              simpa using hmem (by simpa using hfst)
            · intro pb hpb
              refine hq pb ?_
              simpa using hpb
            · simp only [markCompletedToday_trace]
              rw [show countSpawnsOf P (stopCurrentProcess s).trace = countSpawnsOf P s.trace
                from countSpawnsOf_stop s P]
          · refine Nat.le_trans ?_ (engineRun_queueIndex_le _ _ _)
            simp
      · rename_i hcond
        exfalso
        apply hcond
        constructor
        · simpa using Nat.pos_of_ne_zero hP0
        · simp [setF]
    · rename_i idx heq
      simp at heq

def c5state : EngineState :=
  { initState
      { isDir := fun _ => false, isFile := fun _ => false,
        listDir := fun _ => none, pathExists := fun _ => true }
      ⟨2024, 1, 2⟩ {} with
    playlists := fun pid => if pid = 1 then ["/p1/one.mp3", "/p1/two.mp3"] else [],
    playlistKeys := [1, 2, 3],
    playbackQueue := [] }

theorem claim_C5_witness :
    c5state.playlists 1 ≠ [] ∧ (1 : Nat) ≠ 0 ∧ 1 ∈ c5state.playlistKeys ∧
    isPlaylistCompletedToday c5state.store c5state.today 1 = false ∧
    c5state.store.audio_track_position 1 < (c5state.playlists 1).length ∧
    c5state.fs.pathExists
      ((c5state.playlists 1).getD (c5state.store.audio_track_position 1) "") = true ∧
    (spawnsOf (engineRun 7 (Call.start 1 true) c5state).trace =
       spawnsOf c5state.trace ++ [(1, c5state.store.audio_track_position 1)] ∧
     (engineRun 7 (Call.start 1 true) c5state).currentPlaylistId = 1 ∧
     (engineRun 7 (Call.start 1 true) c5state).currentTrackIndex =
       c5state.store.audio_track_position 1 ∧
     (engineRun 7 (Call.start 1 true) c5state).nativePlaying = true) := by
  refine ⟨by decide, by decide, by decide, by decide, by decide, by decide, ?_⟩
  exact (claim_C5 5 c5state 1 true (by decide) (by decide) (by decide)
    (fun h => absurd h (by decide)) (by decide)).1 (by decide) (by decide)

def c10fs : FileSystem where
  isDir := fun p => p == "/p1" || p == "/p2"
  isFile := fun _ => false
  listDir := fun p =>
    if p == "/p1" then some ["one.mp3"]
    else if p == "/p2" then some ["a.mp3", "b.mp3"]
    else none
  pathExists := fun _ => true

def c10state : EngineState :=
  initState c10fs ⟨2024, 1, 1⟩
    { audio_cycle_start_date := "2024-01-01",
      audio_playlist_path := fun pid =>
        if pid = 1 then "/p1" else if pid = 2 then "/p2" else "" }

unseal List.merge List.mergeSort in
theorem claim_C10_witness :
    (getCycleInfo c10state.store c10state.today).is_break = false ∧
    (step 9 c10state Event.setup).playbackQueue =
      (getPlaylistsForDay (getEffectiveDay c10state.store c10state.today)).filter
        (fun pb => c10state.store.audio_playlist_enabled pb.1 &&
          !(expandSource c10state.fs (c10state.store.audio_playlist_path pb.1)).isEmpty) ∧
    (step 9 c10state Event.setup).playbackQueue = [(2, false), (1, true)] := by
  refine ⟨by decide, (claim_C10 9 c10state (by decide)).1, ?_⟩
  rw [(claim_C10 9 c10state (by decide)).1]
  decide

end StudyCompanion
